import Mathlib

/-!
# Verification of the nimbus provisioning/deprovisioning orchestrator

This file gives a shallow embedding, in Lean 4, of the core logic of the
nimbus repository (selector grammar parser, AMI filter compilation, fleet
launch-template-config construction, instance termination wait loop, and the
provisioning / deprovisioning orchestrators in `pkg/vm/vm.go`), together with
theorems settling the specification claims about that logic.

Strings manipulated by the selector parser are modelled as `List Char` so that
the splitting/trimming primitives of Go's `strings` package can be embedded as
structurally recursive, kernel-computable functions.  Go maps whose values are
only ever read with a zero-value default are modelled as association lists.
Cloud calls are modelled by explicit environments of oracle functions returning
`Except`/`Option` results; orchestrator functions additionally return the
ordered trace of provider calls they issued, so that ordering and
"no call was made" properties can be stated.
-/

set_option autoImplicit false

namespace Nimbus

/-! ## Embedding of Go string primitives (package `strings`)

These mirror, over `List Char`, the exact `strings` functions used by
`pkg/selectors/selectors.go`: `TrimSpace`, `Split` (with a one-character
separator, the only form the parser uses), `Cut`, and `ToLower`.
-/

/-- Characters accepted by Go's `unicode.IsSpace` in the Latin-1 range:
tab, newline, vertical tab, form feed, carriage return, space, NEL, NBSP. -/
def isSpaceChar (c : Char) : Bool :=
  c.toNat = 9 || c.toNat = 10 || c.toNat = 11 || c.toNat = 12 ||
  c.toNat = 13 || c.toNat = 32 || c.toNat = 133 || c.toNat = 160

/-- A Go string, modelled as its list of characters. -/
abbrev Str := List Char

instance {ε α : Type} [DecidableEq ε] [DecidableEq α] : DecidableEq (Except ε α) :=
  fun a b =>
    match a, b with
    | .ok x, .ok y =>
      if h : x = y then isTrue (by rw [h]) else isFalse (by intro hc; cases hc; exact h rfl)
    | .error x, .error y =>
      if h : x = y then isTrue (by rw [h]) else isFalse (by intro hc; cases hc; exact h rfl)
    | .ok _, .error _ => isFalse (by intro hc; cases hc)
    | .error _, .ok _ => isFalse (by intro hc; cases hc)

/-- Embedding of `strings.TrimSpace`. -/
def trimStr (s : Str) : Str :=
  ((s.dropWhile isSpaceChar).reverse.dropWhile isSpaceChar).reverse

/-- Embedding of `strings.Split(s, sep)` for a one-character separator `sep`.
Always returns a non-empty list; `splitOnChar sep [] = [[]]`, matching
`strings.Split("", sep) = [""]`. -/
def splitOnChar (sep : Char) : Str → List Str
  | [] => [[]]
  | c :: rest =>
    match splitOnChar sep rest with
    | [] => [[c]]   -- unreachable: the result is always non-empty
    | t :: ts => if c = sep then [] :: t :: ts else (c :: t) :: ts

/-- Embedding of `strings.Cut(s, sep)` for a one-character separator:
`some (before, after)` splits at the first occurrence of `sep`,
`none` means `sep` does not occur. -/
def cutChar (sep : Char) : Str → Option (Str × Str)
  | [] => none
  | c :: rest =>
    if c = sep then some ([], rest)
    else
      match cutChar sep rest with
      | none => none
      | some (a, b) => some (c :: a, b)

/-- Embedding of `strings.ToLower` (ASCII range, the only range the
selector keywords use). -/
def toLowerStr (s : Str) : Str := s.map Char.toLower

/-! ## Provider-neutral EC2 filters -/

/-- An EC2 describe filter (`ec2types.Filter`): a filter name and the list of
values it matches. -/
structure EC2Filter where
  name   : String
  values : List String
  deriving DecidableEq, Repr

/-- Embedding of `selectors.TagsToEC2Filters`: a tag with empty or `"*"`
value compiles to a key-presence (`tag-key`) filter, any other tag to a
`tag:<key>` equality filter.  The Go map is modelled as an association list
iterated in order. -/
def TagsToEC2Filters : List (String × String) → List EC2Filter
  | [] => []
  | (k, v) :: rest =>
    (if v = "*" ∨ v = "" then EC2Filter.mk "tag-key" [k]
     else EC2Filter.mk ("tag:" ++ k) [v]) :: TagsToEC2Filters rest

/-! ## Selector grammar parser (`pkg/selectors/selectors.go`) -/

namespace selectors

/-- Go struct `GenericSelector`: tag criteria and other keyword criteria.
The Go `map[string]string` fields are modelled as association lists with
overwrite-on-insert semantics. -/
structure GenericSelector where
  Tags    : List (Str × Str) := []
  KeyVals : List (Str × Str) := []
  deriving DecidableEq, Repr

/-- Insertion into a Go map: overwrite the existing entry or append. -/
def setKV (m : List (Str × Str)) (k v : Str) : List (Str × Str) :=
  match m with
  | [] => [(k, v)]
  | (k', v') :: rest => if k' = k then (k, v) :: rest else (k', v') :: setKV rest k v

/-- Lookup in a Go map with zero-value default (the empty string). -/
def getKV (m : List (Str × Str)) (k : Str) : Str :=
  match m with
  | [] => []
  | (k', v') :: rest => if k' = k then v' else getKV rest k

/-- The two error shapes produced by `ParseSelectorsTokens`:
`invalidSelector c` is the error `"invalid selector: %s"` naming the criterion
fragment `c` that lacks a `:`; `invalidTagSelector v n` is the error
`"invalid tag selector: %s. Expected 0 or 1 \"=\", but found %d"`. -/
inductive SelectorError where
  | invalidSelector (fragment : Str)
  | invalidTagSelector (value : Str) (eqCount : Nat)
  deriving DecidableEq, Repr

/-- The keyword `"tag"`. -/
def tagKeyword : Str := ['t', 'a', 'g']

/-- Body of the inner `for _, c := range components` loop of
`ParseSelectorsTokens`, folded over the criteria of one term. -/
def parseCriteria (acc : GenericSelector) :
    List Str → Except SelectorError GenericSelector
  | [] => .ok acc
  | c :: rest =>
    match cutChar ':' c with
    | none => .error (.invalidSelector c)
    | some (keyword, value) =>
      if keyword = tagKeyword then
        match splitOnChar '=' value with
        | [k] => parseCriteria { acc with Tags := setKV acc.Tags k [] } rest
        | [k, v] => parseCriteria { acc with Tags := setKV acc.Tags k v } rest
        | tagTokens => .error (.invalidTagSelector value (tagTokens.length - 1))
      else
        parseCriteria { acc with KeyVals := setKV acc.KeyVals (toLowerStr keyword) value } rest

/-- Body of the outer `for _, term := range selectorTerms` loop of
`ParseSelectorsTokens`: terms that are whitespace-only are skipped
(`continue`), the first criterion error aborts the whole parse. -/
def parseTerms : List Str → Except SelectorError (List GenericSelector)
  | [] => .ok []
  | term :: rest =>
    if trimStr term = [] then parseTerms rest
    else
      match parseCriteria {} (splitOnChar ',' term) with
      | .error e => .error e
      | .ok sel =>
        match parseTerms rest with
        | .error e => .error e
        | .ok sels => .ok (sel :: sels)

/-- Embedding of `selectors.ParseSelectorsTokens`: trim the whole input,
split on `;` into terms, and parse each term's `,`-separated criteria. -/
def ParseSelectorsTokens (s : Str) : Except SelectorError (List GenericSelector) :=
  parseTerms (splitOnChar ';' (trimStr s))

/-! ### Reference grammar (written from the claim's words, for comparison)

The claim describes `Parse` as: split the input on `;` into Selectors, each
term on `,` into criteria; a `keyword:value` criterion with keyword `tag` adds
a `Tags` entry (value split on `=`, a missing `=` yielding the wildcard empty
value), any other keyword adds a lower-cased `KeyVals` entry; error exactly on
a criterion without `:` or a tag value with more than one `=`; empty terms are
dropped so that the empty input yields the empty selector set. -/

/-- Reference parse of one criterion, following the claim's grammar. -/
def refCriterion (acc : GenericSelector) (c : Str) :
    Except SelectorError GenericSelector :=
  match cutChar ':' c with
  | none => .error (.invalidSelector c)
  | some (keyword, value) =>
    if keyword = tagKeyword then
      match splitOnChar '=' value with
      | [k] => .ok { acc with Tags := setKV acc.Tags k [] }
      | [k, v] => .ok { acc with Tags := setKV acc.Tags k v }
      | tagTokens => .error (.invalidTagSelector value (tagTokens.length - 1))
    else
      .ok { acc with KeyVals := setKV acc.KeyVals (toLowerStr keyword) value }

/-- Reference parse of the criteria of one term. -/
def refTerm (acc : GenericSelector) : List Str → Except SelectorError GenericSelector
  | [] => .ok acc
  | c :: rest =>
    match refCriterion acc c with
    | .error e => .error e
    | .ok acc' => refTerm acc' rest

/-- Reference parse of a list of terms. -/
def refTerms : List Str → Except SelectorError (List GenericSelector)
  | [] => .ok []
  | term :: rest =>
    match refTerm {} (splitOnChar ',' term) with
    | .error e => .error e
    | .ok sel =>
      match refTerms rest with
      | .error e => .error e
      | .ok sels => .ok (sel :: sels)

/-- The reference grammar of the claim: split the raw input on `;`, drop
empty terms, parse each term. No whitespace treatment appears in the claim. -/
def refParse (s : Str) : Except SelectorError (List GenericSelector) :=
  refTerms ((splitOnChar ';' s).filter (fun t => t ≠ []))

/-- A criterion is malformed when it lacks a `:` separator, or is a tag
criterion whose value contains more than one `=`. -/
def badCriterion (c : Str) : Prop :=
  cutChar ':' c = none ∨
  ∃ k v, cutChar ':' c = some (k, v) ∧ k = tagKeyword ∧ (splitOnChar '=' v).length > 2

instance (c : Str) : Decidable (badCriterion c) :=
  match h : cutChar ':' c with
  | none => isTrue (Or.inl h)
  | some kv =>
    if hk : kv.1 = tagKeyword ∧ (splitOnChar '=' kv.2).length > 2 then
      isTrue (Or.inr ⟨kv.1, kv.2, by rw [h], hk.1, hk.2⟩)
    else
      isFalse (by
        rintro (hnone | ⟨k, v, hsome, hkw, hlen⟩)
        · rw [h] at hnone; cases hnone
        · rw [h] at hsome
          cases hsome
          exact hk ⟨hkw, hlen⟩)

/-- The terms of an input actually parsed by the source implementation:
the whole input is trimmed, split on `;`, and whitespace-only terms dropped. -/
def keptTerms (s : Str) : List Str :=
  (splitOnChar ';' (trimStr s)).filter (fun t => trimStr t ≠ [])

/-- Whether an `Except` result is an error. -/
def isErr {ε α : Type} : Except ε α → Bool
  | .error _ => true
  | .ok _ => false

theorem parseCriteria_eq_refTerm (cs : List Str) (acc : GenericSelector) :
    parseCriteria acc cs = refTerm acc cs := by
  induction cs generalizing acc with
  | nil => rfl
  | cons c rest ih =>
    simp only [parseCriteria, refTerm, refCriterion]
    cases h : cutChar ':' c with
    | none => rfl
    | some kv =>
      by_cases hk : kv.1 = tagKeyword
      · rcases hsplit : splitOnChar '=' kv.2 with _ | ⟨k1, _ | ⟨v1, _ | ⟨w1, rest1⟩⟩⟩ <;>
          simp [hk, hsplit, ih]
      · simp [hk, ih]

theorem splitOnChar_ne_nil (sep : Char) (s : Str) : splitOnChar sep s ≠ [] := by
  cases s with
  | nil => simp [splitOnChar]
  | cons a b =>
    simp only [splitOnChar]
    cases hs : splitOnChar sep b with
    | nil => simp
    | cons t ts => by_cases hab : a = sep <;> simp [hab]

theorem refCriterion_error_iff (acc : GenericSelector) (c : Str) :
    isErr (refCriterion acc c) = true ↔ badCriterion c := by
  unfold refCriterion badCriterion
  cases h : cutChar ':' c with
  | none => simp [isErr]
  | some kv =>
    obtain ⟨k, v⟩ := kv
    by_cases hk : k = tagKeyword
    · rcases hsplit : splitOnChar '=' v with _ | ⟨k1, _ | ⟨v1, _ | ⟨w1, rest1⟩⟩⟩
    -- the empty case is impossible: splitOnChar never returns []
      · exact absurd hsplit (splitOnChar_ne_nil '=' v)
      · simp [hk, hsplit, isErr]
      · simp [hk, hsplit, isErr]
      · simp only [hk, if_true, hsplit, isErr, true_iff]
        refine Or.inr ⟨tagKeyword, v, rfl, rfl, ?_⟩
        rw [hsplit]; simp only [List.length_cons]; omega
    · simp [hk, isErr]

theorem refTerm_error_iff (cs : List Str) (acc : GenericSelector) :
    isErr (refTerm acc cs) = true ↔ ∃ c ∈ cs, badCriterion c := by
  induction cs generalizing acc with
  | nil => simp [refTerm, isErr]
  | cons c rest ih =>
    simp only [refTerm]
    cases hc : refCriterion acc c with
    | error e =>
      simp only [isErr, true_iff]
      exact ⟨c, List.mem_cons_self c rest,
        (refCriterion_error_iff acc c).mp (by rw [hc]; rfl)⟩
    | ok acc' =>
      have hnotbad : ¬ badCriterion c := by
        intro hb
        have := (refCriterion_error_iff acc c).mpr hb
        rw [hc] at this; cases this
      rw [ih acc']
      constructor
      · rintro ⟨c', hc', hbad⟩; exact ⟨c', List.mem_cons_of_mem _ hc', hbad⟩
      · rintro ⟨c', hc', hbad⟩
        rcases List.mem_cons.mp hc' with rfl | hmem
        · exact absurd hbad hnotbad
        · exact ⟨c', hmem, hbad⟩

theorem parseTerms_eq_refTerms (ts : List Str) :
    parseTerms ts = refTerms (ts.filter (fun t => trimStr t ≠ [])) := by
  induction ts with
  | nil => rfl
  | cons term rest ih =>
    by_cases ht : trimStr term = []
    · simp [parseTerms, ht, ih]
    · simp [parseTerms, refTerms, ht, parseCriteria_eq_refTerm, ih, List.filter_cons]

theorem refTerms_error_iff (ts : List Str) :
    isErr (refTerms ts) = true ↔ ∃ t ∈ ts, ∃ c ∈ splitOnChar ',' t, badCriterion c := by
  induction ts with
  | nil => simp [refTerms, isErr]
  | cons term rest ih =>
    simp only [refTerms]
    cases h : refTerm {} (splitOnChar ',' term) with
    | error e =>
      simp only [isErr, true_iff]
      refine ⟨term, List.mem_cons_self term rest, ?_⟩
      have := (refTerm_error_iff (splitOnChar ',' term) {}).mp (by rw [h]; rfl)
      exact this
    | ok sel =>
      have hterm : ¬ ∃ c ∈ splitOnChar ',' term, badCriterion c := by
        intro hc
        have := (refTerm_error_iff (splitOnChar ',' term) {}).mpr hc
        rw [h] at this; cases this
      cases h2 : refTerms rest with
      | error e =>
        simp only [isErr, true_iff]
        have := ih.mp (by rw [h2]; rfl)
        rcases this with ⟨t, ht, hc⟩
        exact ⟨t, List.mem_cons_of_mem _ ht, hc⟩
      | ok sels =>
        constructor
        · intro hf; exact absurd hf (by simp [isErr])
        · rintro ⟨t, ht, hc⟩
          rcases List.mem_cons.mp ht with rfl | hmem
          · exact absurd hc hterm
          · have := ih.mpr ⟨t, hmem, hc⟩
            rw [h2] at this
            simp [isErr] at this

/-! ### Whitespace lemmas -/

theorem dropWhile_space_append (ws t : Str) (h : ∀ c ∈ ws, isSpaceChar c = true) :
    (ws ++ t).dropWhile isSpaceChar = t.dropWhile isSpaceChar := by
  induction ws with
  | nil => rfl
  | cons c rest ih =>
    simp only [List.cons_append, List.dropWhile_cons,
      h c (List.mem_cons_self c rest), if_true]
    exact ih (fun c' hc' => h c' (List.mem_cons_of_mem _ hc'))

theorem trimStr_space_left (ws t : Str) (h : ∀ c ∈ ws, isSpaceChar c = true) :
    trimStr (ws ++ t) = trimStr t := by
  unfold trimStr
  rw [dropWhile_space_append ws t h]

theorem trimStr_space_right (t ws : Str) (h : ∀ c ∈ ws, isSpaceChar c = true) :
    trimStr (t ++ ws) = trimStr t := by
  unfold trimStr
  rw [List.dropWhile_append]
  by_cases he : (t.dropWhile isSpaceChar).isEmpty
  · have hws : ws.dropWhile isSpaceChar = [] := List.dropWhile_eq_nil_iff.mpr h
    rw [List.isEmpty_iff] at he
    simp [he, hws]
  · rw [if_neg he, List.reverse_append,
      dropWhile_space_append ws.reverse _ (fun c hc => h c (List.mem_reverse.mp hc))]

end selectors

/-! ## AMI provider filter compilation (`pkg/providers/amis`, `filterSets`) -/

namespace amis

/-- Go struct `amis.Selector`. -/
structure Selector where
  Tags         : List (String × String) := []
  Name         : String := ""
  ID           : String := ""
  OwnerID      : String := ""
  SSM          : String := ""
  Alias        : String := ""
  Architecture : String := ""
  deriving DecidableEq, Repr

/-- The security-relevant default owner filter: when no owner is selected,
only images published by `self` or `amazon` are considered. -/
def ownerAliasDefault : EC2Filter := EC2Filter.mk "owner-alias" ["self", "amazon"]

/-- A selector that selects purely by image id. -/
def pureIdSelector (s : Selector) : Prop :=
  s.ID ≠ "" ∧ s.Name = "" ∧ s.OwnerID = "" ∧ s.SSM = "" ∧ s.Alias = "" ∧
  s.Architecture = "" ∧ s.Tags = []

/-- The filter group compiled for one AMI selector term, in source order:
an optional `image-id` filter, the `owner-alias` filter (the explicit owner
if given, otherwise the `self,amazon` default), optional `name` and
`architecture` filters, then the compiled tag filters. -/
def amiTermFilters (term : Selector) : List EC2Filter :=
  (if term.ID ≠ "" then [EC2Filter.mk "image-id" [term.ID]] else []) ++
  (if term.OwnerID ≠ "" then [EC2Filter.mk "owner-alias" [term.OwnerID]]
   else [ownerAliasDefault]) ++
  (if term.Name ≠ "" then [EC2Filter.mk "name" [term.Name]] else []) ++
  (if term.Architecture ≠ ""
   then [EC2Filter.mk "architecture" [term.Architecture]] else []) ++
  TagsToEC2Filters term.Tags

/-- Embedding of `amis.filterSets`: one filter group per selector term. -/
def filterSets : List Selector → List (List EC2Filter)
  | [] => []
  | term :: rest => amiTermFilters term :: filterSets rest

theorem mem_TagsToEC2Filters_values {tags : List (String × String)}
    {f : EC2Filter} (h : f ∈ TagsToEC2Filters tags) : ∃ x, f.values = [x] := by
  induction tags with
  | nil => cases h
  | cons kv rest ih =>
    obtain ⟨k, v⟩ := kv
    rcases List.mem_cons.mp h with rfl | hmem
    · by_cases hv : v = "*" ∨ v = "" <;> simp_all [TagsToEC2Filters]
    · exact ih hmem

/-- Every filter in a compiled AMI group has a single value, except for the
default owner filter, which only appears when no owner was selected. -/
theorem mem_amiTermFilters (term : Selector) (f : EC2Filter)
    (h : f ∈ amiTermFilters term) :
    (∃ x, f.values = [x]) ∨ (f = ownerAliasDefault ∧ term.OwnerID = "") := by
  unfold amiTermFilters at h
  rcases List.mem_append.mp h with h | htags
  · rcases List.mem_append.mp h with h | harch
    · rcases List.mem_append.mp h with h | hname
      · rcases List.mem_append.mp h with hid | hown
        · rcases List.mem_ite_nil_right.mp hid with ⟨_, hid⟩
          rcases List.mem_singleton.mp hid with rfl
          exact Or.inl ⟨_, rfl⟩
        · by_cases hov : term.OwnerID ≠ ""
          · rw [if_pos hov] at hown
            rcases List.mem_singleton.mp hown with rfl
            exact Or.inl ⟨_, rfl⟩
          · rw [if_neg hov] at hown
            rcases List.mem_singleton.mp hown with rfl
            exact Or.inr ⟨rfl, by simpa using hov⟩
      · rcases List.mem_ite_nil_right.mp hname with ⟨_, hname⟩
        rcases List.mem_singleton.mp hname with rfl
        exact Or.inl ⟨_, rfl⟩
    · rcases List.mem_ite_nil_right.mp harch with ⟨_, harch⟩
      rcases List.mem_singleton.mp harch with rfl
      exact Or.inl ⟨_, rfl⟩
  · exact Or.inl (mem_TagsToEC2Filters_values htags)

end amis

/-! ## Fleet capacity request construction (`pkg/providers/fleets/fleets.go`) -/

namespace fleets

/-- An AMI as resolved by the AMI watcher: image id plus CPU architecture
(`ec2types.Image.Architecture`, "arm64" or "x86_64"). -/
structure AMI where
  ImageId      : String
  Architecture : String
  deriving DecidableEq, Repr

/-- An instance type with the CPU architectures its processor supports
(`ec2types.InstanceTypeInfo.ProcessorInfo.SupportedArchitectures`). -/
structure InstanceType where
  InstanceType           : String
  SupportedArchitectures : List String
  deriving DecidableEq, Repr

/-- A subnet, reduced to the id that fleet overrides reference. -/
structure Subnet where
  SubnetId : String
  deriving DecidableEq, Repr

/-- A launch template, reduced to the id that fleet configs reference. -/
structure LaunchTemplate where
  LaunchTemplateId : String
  deriving DecidableEq, Repr

/-- Go struct `fleets.CreateFleetOptions` (fields used by
`launchTemplateConfigs`). -/
structure CreateFleetOptions where
  Name           : String := ""
  Namespace      : String := ""
  LaunchTemplate : LaunchTemplate := LaunchTemplate.mk ""
  Subnets        : List Subnet := []
  AMIs           : List AMI := []
  InstanceTypes  : List InstanceType := []
  IAMRole        : String := ""
  CapacityType   : String := ""
  deriving DecidableEq, Repr

/-- `ec2types.FleetLaunchTemplateSpecificationRequest`: the launch-template
reference each override entry carries. -/
structure FleetLaunchTemplateSpecification where
  LaunchTemplateId : String
  Version          : String
  deriving DecidableEq, Repr

/-- One entry of `ec2types.FleetLaunchTemplateOverridesRequest`. -/
structure FleetOverride where
  ImageId      : String
  SubnetId     : String
  InstanceType : String
  deriving DecidableEq, Repr

/-- `ec2types.FleetLaunchTemplateConfigRequest`: the per-triple config
generated by `launchTemplateConfigs`. -/
structure FleetLaunchTemplateConfig where
  LaunchTemplateSpecification : FleetLaunchTemplateSpecification
  Overrides                   : List FleetOverride
  deriving DecidableEq, Repr

/-- The AMIs chosen per architecture by `launchTemplateConfigs`: the first
arm64 AMI of the options (if any) followed by the first x86_64 AMI (if any),
selected with `lo.Find`. -/
def amiArchs (opts : CreateFleetOptions) : List AMI :=
  (match opts.AMIs.find? (fun ami => ami.Architecture == "arm64") with
   | some a => [a]
   | none => []) ++
  (match opts.AMIs.find? (fun ami => ami.Architecture == "x86_64") with
   | some a => [a]
   | none => [])

/-- The instance types of the options whose supported architectures include
the given AMI's architecture (`lo.Filter` + `lo.Find`). -/
def supportedInstanceTypesForArch (opts : CreateFleetOptions) (ami : AMI) :
    List InstanceType :=
  opts.InstanceTypes.filter (fun instanceType =>
    (instanceType.SupportedArchitectures.find?
      (fun arch => arch == ami.Architecture)).isSome)

/-- Embedding of `fleets.launchTemplateConfigs`: for each per-architecture
AMI, for each instance type supporting that architecture, for each subnet,
emit one config referencing the launch template by id at version `$Latest`
with a single (image, subnet, instance-type) override. -/
def launchTemplateConfigs (launchTemplate : LaunchTemplate)
    (createOpts : CreateFleetOptions) : List FleetLaunchTemplateConfig :=
  (amiArchs createOpts).flatMap (fun ami =>
    (supportedInstanceTypesForArch createOpts ami).flatMap (fun instanceType =>
      createOpts.Subnets.map (fun subnet =>
        FleetLaunchTemplateConfig.mk
          (FleetLaunchTemplateSpecification.mk
            launchTemplate.LaunchTemplateId "$Latest")
          [FleetOverride.mk ami.ImageId subnet.SubnetId
            instanceType.InstanceType])))

/-- Reference definition following the claim's words: the overrides are the
cross product of the resolved AMIs (grouped by CPU architecture, every AMI of
a group contributing), the instance types whose supported architectures
include that AMI's architecture, and the resolved subnets, each entry
referencing the launch template by id/version. -/
def claimCrossProductConfigs (launchTemplate : LaunchTemplate)
    (createOpts : CreateFleetOptions) : List FleetLaunchTemplateConfig :=
  createOpts.AMIs.flatMap (fun ami =>
    (supportedInstanceTypesForArch createOpts ami).flatMap (fun instanceType =>
      createOpts.Subnets.map (fun subnet =>
        FleetLaunchTemplateConfig.mk
          (FleetLaunchTemplateSpecification.mk
            launchTemplate.LaunchTemplateId "$Latest")
          [FleetOverride.mk ami.ImageId subnet.SubnetId
            instanceType.InstanceType])))

/-- Fleet options with two arm64 AMIs: the shape on which the source keeps
only the first AMI of the architecture. -/
def twoArm64Opts : CreateFleetOptions :=
  { AMIs := [AMI.mk "ami-a" "arm64", AMI.mk "ami-b" "arm64"],
    InstanceTypes := [InstanceType.mk "c6g.large" ["arm64"]],
    Subnets := [Subnet.mk "subnet-1"] }

end fleets

/-! ## Provider errors (`smithy.APIError`, `pkg/utils/ec2utils`) -/

/-- A provider (cloud API) error, carrying the smithy error code and message. -/
structure AWSError where
  Code    : String := ""
  Message : String := ""
  deriving DecidableEq, Repr

/-- Embedding of `ec2utils.IsAlreadyExistsErr`: the only "already exists"
error class recognized is the launch-template name collision. -/
def IsAlreadyExistsErr (e : AWSError) : Bool :=
  e.Code ∈ ["InvalidLaunchTemplateName.AlreadyExistsException"]

/-! ## Instance termination (`pkg/providers/instances/instances.go`) -/

namespace instances

/-- Go struct `instances.Selector`. -/
structure Selector where
  Tags  : List (String × String) := []
  ID    : String := ""
  State : String := ""
  deriving DecidableEq, Repr

/-- An EC2 instance, reduced to its id. -/
structure Instance where
  InstanceId : String
  deriving DecidableEq, Repr

/-- The selector `TerminateInstance` re-resolves on every poll:
the instance id filtered to state `terminated`. -/
def terminatedSelector (instanceID : String) : List Selector :=
  [{ ID := instanceID, State := "terminated" }]

/-- Embedding of the polling loop of `TerminateInstance`
(`for range time.NewTicker(2 * time.Second).C`). The cloud's evolving state
is modelled by `resolve`, mapping the poll index to the result of the
`Resolve` call issued at that tick. `fuel` bounds how many polls we unroll:
`none` means the loop is still running after `fuel` polls, `some r` means the
function returned with result `r` (`r = none` is a nil error). -/
def waitForTerminated
    (resolve : Nat → List Selector → Except AWSError (List Instance))
    (instanceID : String) : Nat → Nat → Option (Option AWSError)
  | _, 0 => none
  | i, fuel + 1 =>
    match resolve i (terminatedSelector instanceID) with
    | .error e => some (some e)
    | .ok terminatedInstances =>
      if terminatedInstances.length > 0 then some none
      else waitForTerminated resolve instanceID (i + 1) fuel

/-- Embedding of `instances.TerminateInstance`: issue the terminate call,
propagate its error, then block polling until the instance resolves in state
`terminated`. -/
def TerminateInstance (terminateResult : Option AWSError)
    (resolve : Nat → List Selector → Except AWSError (List Instance))
    (instanceID : String) (fuel : Nat) : Option (Option AWSError) :=
  match terminateResult with
  | some e => some (some e)
  | none => waitForTerminated resolve instanceID 0 fuel

theorem waitForTerminated_const_empty (instanceID : String) :
    ∀ (fuel i : Nat),
      waitForTerminated (fun _ _ => .ok []) instanceID i fuel = none := by
  intro fuel
  induction fuel with
  | zero => intro i; rfl
  | succ n ih => intro i; simpa [waitForTerminated] using ih (i + 1)

theorem waitForTerminated_ok (resolve : Nat → List Selector →
      Except AWSError (List Instance)) (instanceID : String) :
    ∀ (fuel i : Nat),
      waitForTerminated resolve instanceID i fuel = some none →
      ∃ j, i ≤ j ∧ ∃ insts, resolve j (terminatedSelector instanceID) = .ok insts ∧
        insts.length > 0 := by
  intro fuel
  induction fuel with
  | zero => intro i h; cases h
  | succ n ih =>
    intro i h
    unfold waitForTerminated at h
    cases hr : resolve i (terminatedSelector instanceID) with
    | error e => rw [hr] at h; cases h
    | ok insts =>
      rw [hr] at h
      dsimp only at h
      by_cases hlen : insts.length > 0
      · exact ⟨i, Nat.le_refl i, insts, hr, hlen⟩
      · rw [if_neg hlen] at h
        rcases ih (i + 1) h with ⟨j, hj, hrest⟩
        exact ⟨j, Nat.le_trans (Nat.le_succ i) hj, hrest⟩

theorem waitForTerminated_error (resolve : Nat → List Selector →
      Except AWSError (List Instance)) (instanceID : String) (e : AWSError) :
    ∀ (fuel i : Nat),
      waitForTerminated resolve instanceID i fuel = some (some e) →
      ∃ j, i ≤ j ∧ resolve j (terminatedSelector instanceID) = .error e := by
  intro fuel
  induction fuel with
  | zero => intro i h; cases h
  | succ n ih =>
    intro i h
    unfold waitForTerminated at h
    cases hr : resolve i (terminatedSelector instanceID) with
    | error e' =>
      rw [hr] at h
      cases h
      exact ⟨i, Nat.le_refl i, hr⟩
    | ok insts =>
      rw [hr] at h
      dsimp only at h
      by_cases hlen : insts.length > 0
      · rw [if_pos hlen] at h; cases h
      · rw [if_neg hlen] at h
        rcases ih (i + 1) h with ⟨j, hj, hres⟩
        exact ⟨j, Nat.le_trans (Nat.le_succ i) hj, hres⟩

end instances

/-! ## Deletion plans and the deprovisioning orchestrator
(`pkg/plans/deletionplan.go`, `pkg/vm/vm.go` `Delete`) -/

namespace plans

/-- Resource records carried by a `DeletionSpec`, each reduced to the id
field the `Delete` loops dereference. -/
structure SecurityGroup where
  GroupId : String
  deriving DecidableEq, Repr

/-- An Internet Gateway, reduced to its id. -/
structure InternetGateway where
  InternetGatewayId : String
  deriving DecidableEq, Repr

/-- A route table, reduced to its id. -/
structure RouteTable where
  RouteTableId : String
  deriving DecidableEq, Repr

/-- A subnet, reduced to its id. -/
structure Subnet where
  SubnetId : String
  deriving DecidableEq, Repr

/-- A VPC, reduced to its id. -/
structure VPC where
  VpcId : String
  deriving DecidableEq, Repr

/-- Go struct `plans.DeletionMetadata`. -/
structure DeletionMetadata where
  Namespace : String := ""
  Name      : String := ""
  deriving DecidableEq, Repr

/-- Go struct `plans.DeletionSpec`: the resources discovered for deletion
(all seven kinds iterated by `Delete`, including the Internet Gateways and
route tables dereferenced by `vm.go`). -/
structure DeletionSpec where
  VPCs             : List VPC := []
  Subnets          : List Subnet := []
  SecurityGroups   : List SecurityGroup := []
  LaunchTemplates  : List fleets.LaunchTemplate := []
  Instances        : List instances.Instance := []
  InternetGateways : List InternetGateway := []
  RouteTables      : List RouteTable := []
  deriving DecidableEq, Repr

/-- Go struct `plans.DeletionStatus`: per kind, a map from resource id to a
bool recording that the resource has been deleted (modelled as an
association list; a missing key reads as `false`, the Go zero value). -/
structure DeletionStatus where
  VPCs             : List (String × Bool) := []
  Subnets          : List (String × Bool) := []
  SecurityGroups   : List (String × Bool) := []
  Instances        : List (String × Bool) := []
  LaunchTemplates  : List (String × Bool) := []
  InternetGateways : List (String × Bool) := []
  RouteTables      : List (String × Bool) := []
  deriving DecidableEq, Repr

/-- Go struct `plans.DeletionPlan`. -/
structure DeletionPlan where
  Metadata : DeletionMetadata := {}
  Spec     : DeletionSpec := {}
  Status   : DeletionStatus := {}
  deriving DecidableEq, Repr

end plans

namespace vm

open plans

/-- Lookup in a Go `map[string]bool` with zero-value default `false`. -/
def lookupBoolMap (m : List (String × Bool)) (k : String) : Bool :=
  match m with
  | [] => false
  | (k', v) :: rest => if k' = k then v else lookupBoolMap rest k

/-- Assignment `m[k] = v` into a Go `map[string]bool`. -/
def setBoolMap (m : List (String × Bool)) (k : String) (v : Bool) :
    List (String × Bool) :=
  match m with
  | [] => [(k, v)]
  | (k', v') :: rest =>
    if k' = k then (k, v) :: rest else (k', v') :: setBoolMap rest k v

/-- The seven resource kinds deleted by `Delete`, in source order. -/
inductive ResourceKind where
  | instanceKind
  | launchTemplateKind
  | securityGroupKind
  | internetGatewayKind
  | routeTableKind
  | subnetKind
  | vpcKind
  deriving DecidableEq, Repr

/-- Position of each kind in the fixed deletion order of `Delete`. -/
def ResourceKind.index : ResourceKind → Nat
  | .instanceKind => 0
  | .launchTemplateKind => 1
  | .securityGroupKind => 2
  | .internetGatewayKind => 3
  | .routeTableKind => 4
  | .subnetKind => 5
  | .vpcKind => 6

/-- The fixed order in which `Delete`'s seven loops run:
instances, launch templates, security groups, Internet Gateways,
route tables, subnets, VPCs. -/
def kindOrder : List ResourceKind :=
  [.instanceKind, .launchTemplateKind, .securityGroupKind,
   .internetGatewayKind, .routeTableKind, .subnetKind, .vpcKind]

/-- The ids listed in the deletion spec for a kind, in source order
(the field each of the seven loops ranges over). -/
def specIds (spec : DeletionSpec) : ResourceKind → List String
  | .instanceKind => spec.Instances.map (fun i => i.InstanceId)
  | .launchTemplateKind => spec.LaunchTemplates.map (fun lt => lt.LaunchTemplateId)
  | .securityGroupKind => spec.SecurityGroups.map (fun sg => sg.GroupId)
  | .internetGatewayKind => spec.InternetGateways.map (fun igw => igw.InternetGatewayId)
  | .routeTableKind => spec.RouteTables.map (fun rt => rt.RouteTableId)
  | .subnetKind => spec.Subnets.map (fun s => s.SubnetId)
  | .vpcKind => spec.VPCs.map (fun v => v.VpcId)

/-- The completed-map of the status for a kind (the map each of the seven
loops consults and updates). -/
def statusCompleted (st : DeletionStatus) : ResourceKind → List (String × Bool)
  | .instanceKind => st.Instances
  | .launchTemplateKind => st.LaunchTemplates
  | .securityGroupKind => st.SecurityGroups
  | .internetGatewayKind => st.InternetGateways
  | .routeTableKind => st.RouteTables
  | .subnetKind => st.Subnets
  | .vpcKind => st.VPCs

/-- Replace the completed-map of one kind in the status. -/
def statusUpdate (st : DeletionStatus) :
    ResourceKind → List (String × Bool) → DeletionStatus
  | .instanceKind, m => { st with Instances := m }
  | .launchTemplateKind, m => { st with LaunchTemplates := m }
  | .securityGroupKind, m => { st with SecurityGroups := m }
  | .internetGatewayKind, m => { st with InternetGateways := m }
  | .routeTableKind, m => { st with RouteTables := m }
  | .subnetKind, m => { st with Subnets := m }
  | .vpcKind, m => { st with VPCs := m }

/-- Completed-map lookup used by every loop:
`deletionPlan.Status.<Kind>[id]`. -/
def statusLookup (st : DeletionStatus) (k : ResourceKind) (id : String) : Bool :=
  lookupBoolMap (statusCompleted st k) id

/-- The provider delete operations `Delete` calls, one per kind:
`TerminateInstance`, `DeleteLaunchTemplate`, `DeleteSecurityGroup`,
`igwWatcher.Delete`, `routeTableWatcher.Delete`, `subnetWatcher.Delete`,
`vpcWatcher.Delete`.  Each returns `none` on success or `some` error. -/
structure DeleteEnv where
  TerminateInstance     : String → Option AWSError
  DeleteLaunchTemplate  : String → Option AWSError
  DeleteSecurityGroup   : String → Option AWSError
  DeleteInternetGateway : String → Option AWSError
  DeleteRouteTable      : String → Option AWSError
  DeleteSubnet          : String → Option AWSError
  DeleteVPC             : String → Option AWSError

/-- The provider delete operation for a kind. -/
def DeleteEnv.deleteFor (env : DeleteEnv) : ResourceKind → String → Option AWSError
  | .instanceKind => env.TerminateInstance
  | .launchTemplateKind => env.DeleteLaunchTemplate
  | .securityGroupKind => env.DeleteSecurityGroup
  | .internetGatewayKind => env.DeleteInternetGateway
  | .routeTableKind => env.DeleteRouteTable
  | .subnetKind => env.DeleteSubnet
  | .vpcKind => env.DeleteVPC

/-- One of the seven deletion loops of `Delete`, all of which share this
shape (`for _, r := range deletionPlan.Spec.<Kind>`): skip an id whose
completed entry is `true`; otherwise call the provider delete and, on error,
return immediately with the map as it stands; on success set the id's entry
to `true` before moving to the next resource.  Returns the updated map, the
error if one occurred, and the ordered list of provider delete calls issued
(tagged with the kind). -/
def deleteLoop (del : String → Option AWSError) (k : ResourceKind) :
    List String → List (String × Bool) →
    List (String × Bool) × Option AWSError × List (ResourceKind × String)
  | [], m => (m, none, [])
  | id :: rest, m =>
    if lookupBoolMap m id then deleteLoop del k rest m
    else
      match del id with
      | some e => (m, some e, [(k, id)])
      | none =>
        let r := deleteLoop del k rest (setBoolMap m id true)
        (r.1, r.2.1, (k, id) :: r.2.2)

/-- The sequence of `Delete`'s loops over a list of kinds: run the loop for
the first kind; on error return the partially updated status with the trace
so far; otherwise continue with the remaining kinds.  `Delete` instantiates
this with `kindOrder`, which spells out the seven loops of the source in
their order. -/
def runKinds (env : DeleteEnv) (spec : DeletionSpec) :
    List ResourceKind → DeletionStatus →
    DeletionStatus × Option AWSError × List (ResourceKind × String)
  | [], st => (st, none, [])
  | k :: ks, st =>
    let r := deleteLoop (env.deleteFor k) k (specIds spec k) (statusCompleted st k)
    let st' := statusUpdate st k r.1
    match r.2.1 with
    | some e => (st', some e, r.2.2)
    | none =>
      let rr := runKinds env spec ks st'
      (rr.1, rr.2.1, r.2.2 ++ rr.2.2)

/-- Embedding of `vm.Delete`: execute the seven deletion loops in the fixed
source order (instances, launch templates, security groups, Internet
Gateways, route tables, subnets, VPCs), returning the plan with its status
updated, the first provider error if any, and the trace of provider delete
calls issued. -/
def Delete (env : DeleteEnv) (deletionPlan : DeletionPlan) :
    DeletionPlan × Option AWSError × List (ResourceKind × String) :=
  let r := runKinds env deletionPlan.Spec kindOrder deletionPlan.Status
  ({ deletionPlan with Status := r.1 }, r.2.1, r.2.2)

/-! ### Lemmas about one deletion loop -/

theorem lookup_setBoolMap (m : List (String × Bool)) (id id' : String) (v : Bool) :
    lookupBoolMap (setBoolMap m id v) id' =
      if id = id' then v else lookupBoolMap m id' := by
  induction m with
  | nil => simp [setBoolMap, lookupBoolMap]
  | cons kv rest ih =>
    obtain ⟨k', v'⟩ := kv
    by_cases hk : k' = id
    · subst hk
      by_cases hi : k' = id' <;> simp [setBoolMap, lookupBoolMap, hi]
    · by_cases hi : k' = id'
      · subst hi
        have : ¬ id = k' := fun h => hk h.symm
        simp [setBoolMap, lookupBoolMap, hk, this]
      · simp [setBoolMap, lookupBoolMap, hk, hi, ih]

theorem deleteLoop_trace_kind (del : String → Option AWSError) (k : ResourceKind) :
    ∀ (ids : List String) (m : List (String × Bool)),
      ∀ p ∈ (deleteLoop del k ids m).2.2,
        p.1 = k ∧ lookupBoolMap m p.2 = false := by
  intro ids
  induction ids with
  | nil => intro m p hp; cases hp
  | cons id rest ih =>
    intro m p hp
    unfold deleteLoop at hp
    by_cases hl : lookupBoolMap m id = true
    · rw [if_pos hl] at hp
      exact ih m p hp
    · rw [if_neg hl] at hp
      cases hd : del id with
      | some e =>
        rw [hd] at hp
        rcases List.mem_singleton.mp hp with rfl
        exact ⟨rfl, Bool.not_eq_true _ ▸ eq_false_of_ne_true hl⟩
      | none =>
        rw [hd] at hp
        rcases List.mem_cons.mp hp with rfl | hmem
        · exact ⟨rfl, eq_false_of_ne_true hl⟩
        · rcases ih _ p hmem with ⟨hk, hlook⟩
          refine ⟨hk, ?_⟩
          rw [lookup_setBoolMap] at hlook
          by_cases hii : id = p.2
          · rw [if_pos hii] at hlook; cases hlook
          · rwa [if_neg hii] at hlook

theorem deleteLoop_nodup (del : String → Option AWSError) (k : ResourceKind) :
    ∀ (ids : List String) (m : List (String × Bool)),
      (deleteLoop del k ids m).2.2.Nodup := by
  intro ids
  induction ids with
  | nil => intro m; exact List.nodup_nil
  | cons id rest ih =>
    intro m
    unfold deleteLoop
    by_cases hl : lookupBoolMap m id = true
    · rw [if_pos hl]; exact ih m
    · rw [if_neg hl]
      cases hd : del id with
      | some e => exact List.nodup_singleton _
      | none =>
        refine List.Nodup.cons ?_ (ih _)
        intro hmem
        have := (deleteLoop_trace_kind del k rest (setBoolMap m id true)
          (k, id) hmem).2
        rw [lookup_setBoolMap, if_pos rfl] at this
        cases this

theorem deleteLoop_lookup (del : String → Option AWSError) (k : ResourceKind) :
    ∀ (ids : List String) (m : List (String × Bool)) (id' : String),
      lookupBoolMap (deleteLoop del k ids m).1 id' = true ↔
        lookupBoolMap m id' = true ∨
          ((k, id') ∈ (deleteLoop del k ids m).2.2 ∧ del id' = none) := by
  intro ids
  induction ids with
  | nil => intro m id'; simp [deleteLoop]
  | cons id rest ih =>
    intro m id'
    unfold deleteLoop
    by_cases hl : lookupBoolMap m id = true
    · rw [if_pos hl]; exact ih m id'
    · rw [if_neg hl]
      cases hd : del id with
      | some e =>
        dsimp only
        constructor
        · exact Or.inl
        · rintro (h | ⟨hmem, hdel⟩)
          · exact h
          · have hp := List.mem_singleton.mp hmem
            injection hp with h1 h2
            rw [h2, hd] at hdel
            cases hdel
      | none =>
        dsimp only
        rw [ih, lookup_setBoolMap]
        by_cases hii : id = id'
        · subst hii
          constructor
          · intro _; exact Or.inr ⟨List.mem_cons_self _ _, hd⟩
          · intro _; exact Or.inl (by rw [if_pos rfl])
        · rw [if_neg hii]
          constructor
          · rintro (h | ⟨hm, hdel⟩)
            · exact Or.inl h
            · exact Or.inr ⟨List.mem_cons_of_mem _ hm, hdel⟩
          · rintro (h | ⟨hm, hdel⟩)
            · exact Or.inl h
            · rcases List.mem_cons.mp hm with heq | hm2
              · injection heq with h1 h2
                exact absurd h2.symm hii
              · exact Or.inr ⟨hm2, hdel⟩

theorem deleteLoop_error (del : String → Option AWSError) (k : ResourceKind) :
    ∀ (ids : List String) (m : List (String × Bool)) (e : AWSError),
      (deleteLoop del k ids m).2.1 = some e →
      ∃ tp lid, (deleteLoop del k ids m).2.2 = tp ++ [(k, lid)] ∧
        del lid = some e ∧ ∀ q ∈ tp, del q.2 = none := by
  intro ids
  induction ids with
  | nil => intro m e h; cases h
  | cons id rest ih =>
    intro m e h
    unfold deleteLoop at h ⊢
    by_cases hl : lookupBoolMap m id = true
    · rw [if_pos hl] at h ⊢; exact ih m e h
    · rw [if_neg hl] at h ⊢
      revert h
      cases hd : del id with
      | some e' =>
        intro h
        dsimp only at h ⊢
        cases h
        exact ⟨[], id, rfl, hd, fun q hq => absurd hq (List.not_mem_nil q)⟩
      | none =>
        intro h
        dsimp only at h ⊢
        rcases ih _ e h with ⟨tp, lid, htr, hdel, hall⟩
        refine ⟨(k, id) :: tp, lid, by rw [htr]; rfl, hdel, ?_⟩
        intro q hq
        rcases List.mem_cons.mp hq with rfl | hmem
        · exact hd
        · exact hall q hmem

theorem deleteLoop_ok_calls (del : String → Option AWSError) (k : ResourceKind) :
    ∀ (ids : List String) (m : List (String × Bool)),
      (deleteLoop del k ids m).2.1 = none →
      ∀ q ∈ (deleteLoop del k ids m).2.2, del q.2 = none := by
  intro ids
  induction ids with
  | nil => intro m _ q hq; cases hq
  | cons id rest ih =>
    intro m h q hq
    unfold deleteLoop at h hq
    by_cases hl : lookupBoolMap m id = true
    · rw [if_pos hl] at h hq; exact ih m h q hq
    · rw [if_neg hl] at h hq
      revert h hq
      cases hd : del id with
      | some e =>
        intro h hq
        dsimp only at h
        cases h
      | none =>
        intro h hq
        dsimp only at h hq
        rcases List.mem_cons.mp hq with rfl | hmem
        · exact hd
        · exact ih _ h q hmem

theorem deleteLoop_complete (del : String → Option AWSError) (k : ResourceKind) :
    ∀ (ids : List String) (m : List (String × Bool)),
      (deleteLoop del k ids m).2.1 = none →
      ∀ id ∈ ids, lookupBoolMap (deleteLoop del k ids m).1 id = true := by
  intro ids
  induction ids with
  | nil => intro m _ id hid; cases hid
  | cons id rest ih =>
    intro m h id' hid'
    unfold deleteLoop at h ⊢
    by_cases hl : lookupBoolMap m id = true
    · rw [if_pos hl] at h ⊢
      rcases List.mem_cons.mp hid' with rfl | hmem
      · exact (deleteLoop_lookup del k rest m id').mpr (Or.inl hl)
      · exact ih m h id' hmem
    · rw [if_neg hl] at h ⊢
      revert h
      cases hd : del id with
      | some e =>
        intro h
        dsimp only at h
        cases h
      | none =>
        intro h
        dsimp only at h ⊢
        rcases List.mem_cons.mp hid' with rfl | hmem
        · exact (deleteLoop_lookup del k rest _ id').mpr
            (Or.inl (by rw [lookup_setBoolMap, if_pos rfl]))
        · exact ih _ h id' hmem

/-! ### Lemmas about the sequenced kind loops -/

theorem statusCompleted_update_same (st : DeletionStatus) (k : ResourceKind)
    (m : List (String × Bool)) :
    statusCompleted (statusUpdate st k m) k = m := by
  cases k <;> rfl

theorem statusCompleted_update_other (st : DeletionStatus) (k : ResourceKind)
    (m : List (String × Bool)) (k' : ResourceKind) (h : k ≠ k') :
    statusCompleted (statusUpdate st k m) k' = statusCompleted st k' := by
  cases k <;> cases k' <;> first | rfl | exact absurd rfl h

theorem index_inj (a b : ResourceKind) (h : a.index = b.index) : a = b := by
  cases a <;> cases b <;> first | rfl | exact absurd h (by decide)

theorem mem_kindOrder (k : ResourceKind) : k ∈ kindOrder := by
  cases k <;> simp [kindOrder]

theorem kindOrder_nodup : kindOrder.Nodup := by decide

theorem kindOrder_sorted :
    List.Pairwise (fun a b : ResourceKind => a.index < b.index) kindOrder := by
  decide

theorem runKinds_trace_mem (env : DeleteEnv) (spec : DeletionSpec) :
    ∀ (ks : List ResourceKind), ks.Nodup → ∀ (st : DeletionStatus),
      ∀ p ∈ (runKinds env spec ks st).2.2,
        p.1 ∈ ks ∧ lookupBoolMap (statusCompleted st p.1) p.2 = false := by
  intro ks
  induction ks with
  | nil => intro _ st p hp; cases hp
  | cons k0 ks' ih =>
    intro hnd st p hp
    unfold runKinds at hp
    dsimp only at hp
    revert hp
    cases hr : (deleteLoop (env.deleteFor k0) k0 (specIds spec k0)
        (statusCompleted st k0)).2.1 with
    | some e =>
      intro hp
      dsimp only at hp
      rcases deleteLoop_trace_kind _ _ _ _ p hp with ⟨hk, hlook⟩
      exact ⟨by rw [hk]; exact List.mem_cons_self _ _, by rwa [hk]⟩
    | none =>
      intro hp
      dsimp only at hp
      rcases List.mem_append.mp hp with hmem | hmem
      · rcases deleteLoop_trace_kind _ _ _ _ p hmem with ⟨hk, hlook⟩
        exact ⟨by rw [hk]; exact List.mem_cons_self _ _, by rwa [hk]⟩
      · obtain ⟨hk0, hnd'⟩ := List.nodup_cons.mp hnd
        rcases ih hnd' _ p hmem with ⟨hkin, hlook⟩
        refine ⟨List.mem_cons_of_mem _ hkin, ?_⟩
        have hne : k0 ≠ p.1 := fun h => hk0 (h ▸ hkin)
        rwa [statusCompleted_update_other _ _ _ _ hne] at hlook

theorem runKinds_nodup (env : DeleteEnv) (spec : DeletionSpec) :
    ∀ (ks : List ResourceKind), ks.Nodup → ∀ (st : DeletionStatus),
      (runKinds env spec ks st).2.2.Nodup := by
  intro ks
  induction ks with
  | nil => intro _ st; exact List.nodup_nil
  | cons k0 ks' ih =>
    intro hnd st
    unfold runKinds
    dsimp only
    cases hr : (deleteLoop (env.deleteFor k0) k0 (specIds spec k0)
        (statusCompleted st k0)).2.1 with
    | some e => exact deleteLoop_nodup _ _ _ _
    | none =>
      obtain ⟨hk0, hnd'⟩ := List.nodup_cons.mp hnd
      refine List.Nodup.append (deleteLoop_nodup _ _ _ _) (ih hnd' _) ?_
      refine List.disjoint_left.mpr ?_
      intro p hp hp'
      have h1 := (deleteLoop_trace_kind _ _ _ _ p hp).1
      have h2 := (runKinds_trace_mem env spec ks' hnd' _ p hp').1
      rw [h1] at h2
      exact hk0 h2

theorem runKinds_lookup (env : DeleteEnv) (spec : DeletionSpec) :
    ∀ (ks : List ResourceKind), ks.Nodup →
      ∀ (st : DeletionStatus) (k : ResourceKind) (id : String),
      lookupBoolMap (statusCompleted (runKinds env spec ks st).1 k) id = true ↔
        lookupBoolMap (statusCompleted st k) id = true ∨
          ((k, id) ∈ (runKinds env spec ks st).2.2 ∧ env.deleteFor k id = none) := by
  intro ks
  induction ks with
  | nil => intro _ st k id; simp [runKinds]
  | cons k0 ks' ih =>
    intro hnd st k id
    unfold runKinds
    dsimp only
    cases hr : (deleteLoop (env.deleteFor k0) k0 (specIds spec k0)
        (statusCompleted st k0)).2.1 with
    | some e =>
      dsimp only
      by_cases hk : k = k0
      · subst hk
        rw [statusCompleted_update_same]
        exact deleteLoop_lookup _ _ _ _ _
      · rw [statusCompleted_update_other _ _ _ _ (fun h => hk h.symm)]
        constructor
        · exact Or.inl
        · rintro (h | ⟨hm, _⟩)
          · exact h
          · exact absurd (deleteLoop_trace_kind _ _ _ _ _ hm).1 hk
    | none =>
      dsimp only
      obtain ⟨hk0, hnd'⟩ := List.nodup_cons.mp hnd
      by_cases hk : k = k0
      · subst hk
        rw [ih hnd' _ k id, statusCompleted_update_same, deleteLoop_lookup]
        constructor
        · rintro ((h | ⟨hm, hdel⟩) | ⟨hm, hdel⟩)
          · exact Or.inl h
          · exact Or.inr ⟨List.mem_append.mpr (Or.inl hm), hdel⟩
          · exact Or.inr ⟨List.mem_append.mpr (Or.inr hm), hdel⟩
        · rintro (h | ⟨hm, hdel⟩)
          · exact Or.inl (Or.inl h)
          · rcases List.mem_append.mp hm with hm | hm
            · exact Or.inl (Or.inr ⟨hm, hdel⟩)
            · exact Or.inr ⟨hm, hdel⟩
      · have hne : k0 ≠ k := fun h => hk h.symm
        rw [ih hnd' _ k id, statusCompleted_update_other _ _ _ _ hne]
        constructor
        · rintro (h | ⟨hm, hdel⟩)
          · exact Or.inl h
          · exact Or.inr ⟨List.mem_append.mpr (Or.inr hm), hdel⟩
        · rintro (h | ⟨hm, hdel⟩)
          · exact Or.inl h
          · rcases List.mem_append.mp hm with hm | hm
            · exact absurd (deleteLoop_trace_kind _ _ _ _ _ hm).1 hk
            · exact Or.inr ⟨hm, hdel⟩

theorem runKinds_error (env : DeleteEnv) (spec : DeletionSpec) :
    ∀ (ks : List ResourceKind) (st : DeletionStatus) (e : AWSError),
      (runKinds env spec ks st).2.1 = some e →
      ∃ tp q, (runKinds env spec ks st).2.2 = tp ++ [q] ∧
        env.deleteFor q.1 q.2 = some e ∧
        ∀ p ∈ tp, env.deleteFor p.1 p.2 = none := by
  intro ks
  induction ks with
  | nil => intro st e h; cases h
  | cons k0 ks' ih =>
    intro st e h
    unfold runKinds at h ⊢
    dsimp only at h ⊢
    revert h
    cases hr : (deleteLoop (env.deleteFor k0) k0 (specIds spec k0)
        (statusCompleted st k0)).2.1 with
    | some e' =>
      intro h
      dsimp only at h ⊢
      cases h
      rcases deleteLoop_error _ _ _ _ _ hr with ⟨tp, lid, htr, hdel, hall⟩
      refine ⟨tp, (k0, lid), htr, hdel, ?_⟩
      intro p hp
      have hkp : p.1 = k0 :=
        (deleteLoop_trace_kind _ _ _ _ p
          (htr ▸ List.mem_append.mpr (Or.inl hp))).1
      rw [hkp]
      exact hall p hp
    | none =>
      intro h
      dsimp only at h ⊢
      rcases ih _ e h with ⟨tp, q, htr, hdel, hall⟩
      refine ⟨(deleteLoop (env.deleteFor k0) k0 (specIds spec k0)
        (statusCompleted st k0)).2.2 ++ tp, q, ?_, hdel, ?_⟩
      · rw [htr, List.append_assoc]
      · intro p hp
        rcases List.mem_append.mp hp with hp | hp
        · have hkp : p.1 = k0 := (deleteLoop_trace_kind _ _ _ _ p hp).1
          rw [hkp]
          exact deleteLoop_ok_calls _ _ _ _ hr p hp
        · exact hall p hp

theorem runKinds_sorted (env : DeleteEnv) (spec : DeletionSpec) :
    ∀ (ks : List ResourceKind), ks.Nodup →
      List.Pairwise (fun a b : ResourceKind => a.index < b.index) ks →
      ∀ (st : DeletionStatus),
      List.Pairwise (fun p q : ResourceKind × String => p.1.index ≤ q.1.index)
        (runKinds env spec ks st).2.2 := by
  intro ks
  induction ks with
  | nil => intro _ _ st; exact List.Pairwise.nil
  | cons k0 ks' ih =>
    intro hnd hsort st
    obtain ⟨hk0, hnd'⟩ := List.nodup_cons.mp hnd
    obtain ⟨hrel, hsort'⟩ := List.pairwise_cons.mp hsort
    unfold runKinds
    dsimp only
    cases hr : (deleteLoop (env.deleteFor k0) k0 (specIds spec k0)
        (statusCompleted st k0)).2.1 with
    | some e =>
      refine List.pairwise_of_forall_mem_list ?_
      intro a ha b hb
      rw [(deleteLoop_trace_kind _ _ _ _ a ha).1,
        (deleteLoop_trace_kind _ _ _ _ b hb).1]
    | none =>
      rw [List.pairwise_append]
      refine ⟨?_, ih hnd' hsort' _, ?_⟩
      · refine List.pairwise_of_forall_mem_list ?_
        intro a ha b hb
        rw [(deleteLoop_trace_kind _ _ _ _ a ha).1,
          (deleteLoop_trace_kind _ _ _ _ b hb).1]
      · intro a ha b hb
        rw [(deleteLoop_trace_kind _ _ _ _ a ha).1]
        have hbk := (runKinds_trace_mem env spec ks' hnd' _ b hb).1
        exact Nat.le_of_lt (hrel b.1 hbk)

theorem runKinds_earlier_complete (env : DeleteEnv) (spec : DeletionSpec) :
    ∀ (ks : List ResourceKind), ks.Nodup →
      List.Pairwise (fun a b : ResourceKind => a.index < b.index) ks →
      ∀ (st : DeletionStatus),
      ∀ p ∈ (runKinds env spec ks st).2.2, ∀ k', k' ∈ ks →
        k'.index < p.1.index → ∀ id' ∈ specIds spec k',
        lookupBoolMap (statusCompleted (runKinds env spec ks st).1 k') id' = true := by
  intro ks
  induction ks with
  | nil => intro _ _ st p hp; cases hp
  | cons k0 ks' ih =>
    intro hnd hsort st p hp k' hk' hlt id' hid'
    obtain ⟨hk0, hnd'⟩ := List.nodup_cons.mp hnd
    obtain ⟨hrel, hsort'⟩ := List.pairwise_cons.mp hsort
    unfold runKinds at hp ⊢
    dsimp only at hp ⊢
    revert hp
    cases hr : (deleteLoop (env.deleteFor k0) k0 (specIds spec k0)
        (statusCompleted st k0)).2.1 with
    | some e =>
      intro hp
      dsimp only at hp ⊢
      have hpk : p.1 = k0 := (deleteLoop_trace_kind _ _ _ _ p hp).1
      rw [hpk] at hlt
      rcases List.mem_cons.mp hk' with rfl | hk'mem
      · exact absurd hlt (Nat.lt_irrefl _)
      · exact absurd hlt (Nat.lt_asymm (hrel k' hk'mem))
    | none =>
      intro hp
      dsimp only at hp ⊢
      rcases List.mem_append.mp hp with hmem | hmem
      · have hpk : p.1 = k0 := (deleteLoop_trace_kind _ _ _ _ p hmem).1
        rw [hpk] at hlt
        rcases List.mem_cons.mp hk' with rfl | hk'mem
        · exact absurd hlt (Nat.lt_irrefl _)
        · exact absurd hlt (Nat.lt_asymm (hrel k' hk'mem))
      · rcases List.mem_cons.mp hk' with rfl | hk'mem
        · refine (runKinds_lookup env spec ks' hnd' _ k' id').mpr (Or.inl ?_)
          rw [statusCompleted_update_same]
          exact deleteLoop_complete _ _ _ _ hr id' hid'
        · exact ih hnd' hsort' _ p hmem k' hk'mem hlt id' hid'

/-! ### Projections of `Delete` -/

theorem Delete_Status (env : DeleteEnv) (plan : DeletionPlan) :
    (Delete env plan).1.Status = (runKinds env plan.Spec kindOrder plan.Status).1 := rfl

theorem Delete_error_eq (env : DeleteEnv) (plan : DeletionPlan) :
    (Delete env plan).2.1 = (runKinds env plan.Spec kindOrder plan.Status).2.1 := rfl

theorem Delete_trace (env : DeleteEnv) (plan : DeletionPlan) :
    (Delete env plan).2.2 = (runKinds env plan.Spec kindOrder plan.Status).2.2 := rfl

/-- An environment where every provider delete call succeeds. -/
def allOkDeleteEnv : DeleteEnv :=
  ⟨fun _ => none, fun _ => none, fun _ => none, fun _ => none,
   fun _ => none, fun _ => none, fun _ => none⟩

/-- A small concrete deletion plan: one instance and one VPC, fresh status. -/
def samplePlan : DeletionPlan :=
  { Spec := { Instances := [⟨"i-1"⟩], VPCs := [⟨"v-1"⟩] } }

/-- A small concrete deletion plan whose status already marks an instance. -/
def sampleMarkedPlan : DeletionPlan :=
  { Spec := { Instances := [⟨"i-0"⟩] },
    Status := { Instances := [("i-0", true)] } }

end vm

end Nimbus

open Nimbus Nimbus.vm Nimbus.plans in
/-- Claim C2: (i) running `Delete` a second time with the `DeletionStatus`
produced by a first run performs zero provider delete calls for the ids the
first run marked `true`; (ii) within one run, the returned status marks an id
`true` exactly when it was already `true` or its delete call was issued and
succeeded in this run, and no id is delete-called twice (the completed entry
is set immediately after each successful deletion); (iii) on the first
provider error the run stops: the failing call is last in the trace, every
earlier call succeeded, and the partially updated status is returned. -/
theorem c2_delete_idempotent_and_resume
    (env1 env2 : DeleteEnv) (plan : DeletionPlan) :
    (∀ (k : ResourceKind) (id : String),
      statusLookup (Delete env1 plan).1.Status k id = true →
      (k, id) ∉ (Delete env2 (Delete env1 plan).1).2.2) ∧
    (∀ (k : ResourceKind) (id : String),
      statusLookup (Delete env1 plan).1.Status k id = true ↔
        statusLookup plan.Status k id = true ∨
          ((k, id) ∈ (Delete env1 plan).2.2 ∧ env1.deleteFor k id = none)) ∧
    (Delete env1 plan).2.2.Nodup ∧
    (∀ e : AWSError, (Delete env1 plan).2.1 = some e →
      ∃ tp q, (Delete env1 plan).2.2 = tp ++ [q] ∧
        env1.deleteFor q.1 q.2 = some e ∧
        ∀ p ∈ tp, env1.deleteFor p.1 p.2 = none) := by
  refine ⟨?_, ?_, ?_, ?_⟩
  · intro k id hlk hmem
    rw [Delete_trace] at hmem
    have hfalse := (runKinds_trace_mem env2 _ kindOrder kindOrder_nodup _
      (k, id) hmem).2
    simp only [statusLookup] at hlk
    rw [hlk] at hfalse
    cases hfalse
  · intro k id
    simp only [statusLookup, Delete_Status, Delete_trace]
    exact runKinds_lookup env1 plan.Spec kindOrder kindOrder_nodup plan.Status k id
  · rw [Delete_trace]
    exact runKinds_nodup env1 plan.Spec kindOrder kindOrder_nodup plan.Status
  · intro e h
    rw [Delete_error_eq] at h
    rw [Delete_trace]
    exact runKinds_error env1 plan.Spec kindOrder plan.Status e h

open Nimbus Nimbus.vm in
/-- Witness for C2 at a concrete plan and all-success environments: after a
first run deleted instance `i-1`, the second run issues no delete call for
it. -/
theorem c2_delete_idempotent_and_resume_witness :
    (ResourceKind.instanceKind, "i-1") ∉
      (Delete allOkDeleteEnv (Delete allOkDeleteEnv samplePlan).1).2.2 :=
  (c2_delete_idempotent_and_resume allOkDeleteEnv allOkDeleteEnv samplePlan).1
    ResourceKind.instanceKind "i-1" (by decide)

open Nimbus Nimbus.vm Nimbus.plans in
/-- Claim C6: `Delete` processes kinds in the fixed order instances, launch
templates, security groups, Internet Gateways, route tables, subnets, VPCs:
the trace of provider delete calls is ordered by that kind order, and
whenever a delete call of some kind was issued, every resource of every
earlier kind listed in the spec is marked complete in the returned status
(it was deleted by this run or skipped as already complete). -/
theorem c6_delete_fixed_order (env : DeleteEnv) (plan : DeletionPlan) :
    List.Pairwise (fun p q : ResourceKind × String => p.1.index ≤ q.1.index)
      (Delete env plan).2.2 ∧
    (∀ p ∈ (Delete env plan).2.2, ∀ k' : ResourceKind,
      k'.index < p.1.index → ∀ id' ∈ specIds plan.Spec k',
      statusLookup (Delete env plan).1.Status k' id' = true) := by
  constructor
  · rw [Delete_trace]
    exact runKinds_sorted env plan.Spec kindOrder kindOrder_nodup
      kindOrder_sorted plan.Status
  · intro p hp k' hlt id' hid'
    rw [Delete_trace] at hp
    simp only [statusLookup, Delete_Status]
    exact runKinds_earlier_complete env plan.Spec kindOrder kindOrder_nodup
      kindOrder_sorted plan.Status p hp k' (mem_kindOrder k') hlt id' hid'

open Nimbus Nimbus.vm in
/-- Witness for C6 at a concrete plan: the VPC delete call was issued, so the
instance of the spec (an earlier kind) is marked complete. -/
theorem c6_delete_fixed_order_witness :
    statusLookup (Delete allOkDeleteEnv samplePlan).1.Status
      ResourceKind.instanceKind "i-1" = true :=
  (c6_delete_fixed_order allOkDeleteEnv samplePlan).2
    (ResourceKind.vpcKind, "v-1") (by decide)
    ResourceKind.instanceKind (by decide) "i-1" (by decide)

open Nimbus Nimbus.vm Nimbus.plans in
/-- Claim C10: `Delete` returns a plan whose `Metadata` and `Spec` equal the
input's; only `Status` changes, monotonically: an id marked `true` stays
`true`, and any entry whose value differs from the input's is `true` (entries
are only ever added with value `true`, never removed or set to `false`). -/
theorem c10_delete_frame (env : DeleteEnv) (plan : DeletionPlan) :
    (Delete env plan).1.Metadata = plan.Metadata ∧
    (Delete env plan).1.Spec = plan.Spec ∧
    (∀ (k : ResourceKind) (id : String),
      statusLookup plan.Status k id = true →
      statusLookup (Delete env plan).1.Status k id = true) ∧
    (∀ (k : ResourceKind) (id : String),
      statusLookup (Delete env plan).1.Status k id ≠ statusLookup plan.Status k id →
      statusLookup (Delete env plan).1.Status k id = true) := by
  refine ⟨rfl, rfl, ?_, ?_⟩
  · intro k id h
    simp only [statusLookup, Delete_Status] at h ⊢
    exact (runKinds_lookup env plan.Spec kindOrder kindOrder_nodup
      plan.Status k id).mpr (Or.inl h)
  · intro k id hne
    by_cases h : statusLookup (Delete env plan).1.Status k id = true
    · exact h
    · exfalso
      have hold : ¬ statusLookup plan.Status k id = true := by
        intro hstat
        simp only [statusLookup, Delete_Status] at h hstat
        exact h ((runKinds_lookup env plan.Spec kindOrder kindOrder_nodup
          plan.Status k id).mpr (Or.inl hstat))
      rw [Bool.not_eq_true] at h hold
      rw [h, hold] at hne
      exact hne rfl

open Nimbus Nimbus.vm in
/-- Witness for C10 at a concrete plan: an entry already `true` in the input
status is still `true` in the returned status. -/
theorem c10_delete_frame_witness :
    statusLookup (Delete allOkDeleteEnv sampleMarkedPlan).1.Status
      ResourceKind.instanceKind "i-0" = true :=
  (c10_delete_frame allOkDeleteEnv sampleMarkedPlan).2.2.1
    ResourceKind.instanceKind "i-0" (by decide)

open Nimbus Nimbus.instances in
/-- Claim C8, counterexample: the polling loop of `TerminateInstance` has no
upper bound on the number of retries.  There is no retry bound `N` that makes
the loop return on every environment: against a cloud that keeps reporting
the instance as not terminated (`Resolve` returning an empty list forever)
the loop never returns, whatever `N`. -/
theorem c8_counterexample :
    ¬ ∃ N : Nat,
      ∀ (resolve : Nat → List Selector → Except AWSError (List Instance))
        (instanceID : String),
        (TerminateInstance none resolve instanceID N).isSome = true := by
  rintro ⟨N, h⟩
  have := h (fun _ _ => .ok []) "i-0"
  rw [TerminateInstance, waitForTerminated_const_empty "i-0" N 0] at this
  cases this

open Nimbus Nimbus.instances in
/-- Claim C8 (amended): after a successful terminate call,
`TerminateInstance` blocks polling, repeatedly re-resolving the instance
with an id + state=`terminated` selector; it returns success only once some
poll observes the instance in state `terminated`, propagates a resolve
error, and the polling loop is *unbounded*: no retry bound makes it return
when the instance is never observed terminated. -/
theorem c8_termination_wait_amended :
    (∀ (resolve : Nat → List Selector → Except AWSError (List Instance))
        (instanceID : String) (fuel : Nat),
      TerminateInstance none resolve instanceID fuel = some none →
      ∃ j insts, resolve j (terminatedSelector instanceID) = .ok insts ∧
        insts.length > 0) ∧
    (∀ (resolve : Nat → List Selector → Except AWSError (List Instance))
        (instanceID : String) (fuel : Nat) (e : AWSError),
      TerminateInstance none resolve instanceID fuel = some (some e) →
      ∃ j, resolve j (terminatedSelector instanceID) = .error e) ∧
    (∀ (e : AWSError) (resolve : Nat → List Selector →
        Except AWSError (List Instance)) (instanceID : String) (fuel : Nat),
      TerminateInstance (some e) resolve instanceID fuel = some (some e)) ∧
    (∀ (instanceID : String) (fuel : Nat),
      TerminateInstance none (fun _ _ => .ok []) instanceID fuel = none) := by
  refine ⟨?_, ?_, fun e resolve instanceID fuel => rfl, ?_⟩
  · intro resolve instanceID fuel h
    rcases waitForTerminated_ok resolve instanceID fuel 0 h with ⟨j, _, hj⟩
    exact ⟨j, hj⟩
  · intro resolve instanceID fuel e h
    rcases waitForTerminated_error resolve instanceID e fuel 0 h with ⟨j, _, hj⟩
    exact ⟨j, hj⟩
  · intro instanceID fuel
    exact waitForTerminated_const_empty instanceID fuel 0

open Nimbus Nimbus.instances in
/-- Witness for C8's amended theorem at a concrete environment: a cloud that
reports the instance terminated on the first poll. -/
theorem c8_termination_wait_amended_witness :
    ∃ j insts,
      (fun (_ : Nat) (_ : List Selector) =>
        (.ok [Instance.mk "i-0"] : Except AWSError (List Instance))) j
          (terminatedSelector "i-0") = .ok insts ∧ insts.length > 0 :=
  c8_termination_wait_amended.1
    (fun _ _ => .ok [Instance.mk "i-0"]) "i-0" 1 rfl

open Nimbus Nimbus.fleets in
/-- Claim C3, counterexample: the generated overrides are not the cross
product of all resolved AMIs grouped by CPU architecture.  With two arm64
AMIs, one arm64-capable instance type and one subnet, the source keeps only
the first AMI of the architecture (`lo.Find`) and emits a single config,
where the claimed cross product has two. -/
theorem c3_counterexample :
    launchTemplateConfigs (LaunchTemplate.mk "lt-1") twoArm64Opts ≠
      claimCrossProductConfigs (LaunchTemplate.mk "lt-1") twoArm64Opts ∧
    (launchTemplateConfigs (LaunchTemplate.mk "lt-1") twoArm64Opts).length = 1 ∧
    (claimCrossProductConfigs (LaunchTemplate.mk "lt-1") twoArm64Opts).length = 2 := by
  refine ⟨by decide, by decide, by decide⟩

open Nimbus Nimbus.fleets in
/-- Claim C3 (amended): the generated launch-template configs are the cross
product of the *per-architecture selected* AMIs — only the first arm64 AMI
and the first x86_64 AMI of the resolved list are used — with the instance
types supporting that architecture and the resolved subnets, each entry
referencing the single launch template by id and version `$Latest`; in
particular, with 2 AMIs (one arm64, one x86_64), 3 instance types
(2 arm64-capable, 1 x86_64-capable) and 2 subnets, exactly 6 override
entries are generated, namely the 6 valid triples. -/
theorem c3_fleet_cross_product_amended :
    (∀ (lt : LaunchTemplate) (opts : CreateFleetOptions),
      launchTemplateConfigs lt opts =
        claimCrossProductConfigs lt { opts with AMIs := amiArchs opts }) ∧
    (∀ (lt : LaunchTemplate) (opts : CreateFleetOptions)
      (a1 a2 : AMI) (t1 t2 t3 : InstanceType) (s1 s2 : Subnet),
      opts.AMIs = [a1, a2] →
      a1.Architecture = "arm64" → a2.Architecture = "x86_64" →
      opts.InstanceTypes = [t1, t2, t3] →
      t1.SupportedArchitectures = ["arm64"] →
      t2.SupportedArchitectures = ["arm64"] →
      t3.SupportedArchitectures = ["x86_64"] →
      opts.Subnets = [s1, s2] →
      launchTemplateConfigs lt opts =
        [FleetLaunchTemplateConfig.mk
          (FleetLaunchTemplateSpecification.mk lt.LaunchTemplateId "$Latest")
          [FleetOverride.mk a1.ImageId s1.SubnetId t1.InstanceType],
         FleetLaunchTemplateConfig.mk
          (FleetLaunchTemplateSpecification.mk lt.LaunchTemplateId "$Latest")
          [FleetOverride.mk a1.ImageId s2.SubnetId t1.InstanceType],
         FleetLaunchTemplateConfig.mk
          (FleetLaunchTemplateSpecification.mk lt.LaunchTemplateId "$Latest")
          [FleetOverride.mk a1.ImageId s1.SubnetId t2.InstanceType],
         FleetLaunchTemplateConfig.mk
          (FleetLaunchTemplateSpecification.mk lt.LaunchTemplateId "$Latest")
          [FleetOverride.mk a1.ImageId s2.SubnetId t2.InstanceType],
         FleetLaunchTemplateConfig.mk
          (FleetLaunchTemplateSpecification.mk lt.LaunchTemplateId "$Latest")
          [FleetOverride.mk a2.ImageId s1.SubnetId t3.InstanceType],
         FleetLaunchTemplateConfig.mk
          (FleetLaunchTemplateSpecification.mk lt.LaunchTemplateId "$Latest")
          [FleetOverride.mk a2.ImageId s2.SubnetId t3.InstanceType]] ∧
      (launchTemplateConfigs lt opts).length = 6 ∧
      ∀ cfg ∈ launchTemplateConfigs lt opts,
        cfg.LaunchTemplateSpecification =
          FleetLaunchTemplateSpecification.mk lt.LaunchTemplateId "$Latest") := by
  constructor
  · intro lt opts
    rfl
  · intro lt opts a1 a2 t1 t2 t3 s1 s2 hamis ha1 ha2 hits ht1 ht2 ht3 hsubs
    refine ⟨?_, ?_, ?_⟩
    · unfold launchTemplateConfigs amiArchs supportedInstanceTypesForArch
      rw [hamis, hits, hsubs]
      simp [List.find?, ha1, ha2, ht1, ht2, ht3, List.filter]
    · unfold launchTemplateConfigs amiArchs supportedInstanceTypesForArch
      rw [hamis, hits, hsubs]
      simp [List.find?, ha1, ha2, ht1, ht2, ht3, List.filter]
    · intro cfg hcfg
      unfold launchTemplateConfigs at hcfg
      rcases List.mem_flatMap.mp hcfg with ⟨ami, _, hin⟩
      rcases List.mem_flatMap.mp hin with ⟨it, _, hin2⟩
      rcases List.mem_map.mp hin2 with ⟨sub, _, rfl⟩
      rfl

open Nimbus Nimbus.fleets in
/-- Witness for C3's amended theorem at fully concrete AMIs, instance types
and subnets. -/
theorem c3_fleet_cross_product_amended_witness :
    (launchTemplateConfigs (LaunchTemplate.mk "lt-1")
      { AMIs := [AMI.mk "ami-arm" "arm64", AMI.mk "ami-x86" "x86_64"],
        InstanceTypes := [InstanceType.mk "c6g.large" ["arm64"],
          InstanceType.mk "m7g.large" ["arm64"],
          InstanceType.mk "m5.large" ["x86_64"]],
        Subnets := [Subnet.mk "subnet-1", Subnet.mk "subnet-2"] }).length = 6 :=
  ((c3_fleet_cross_product_amended.2 (LaunchTemplate.mk "lt-1") _
    (AMI.mk "ami-arm" "arm64") (AMI.mk "ami-x86" "x86_64")
    (InstanceType.mk "c6g.large" ["arm64"]) (InstanceType.mk "m7g.large" ["arm64"])
    (InstanceType.mk "m5.large" ["x86_64"])
    (Subnet.mk "subnet-1") (Subnet.mk "subnet-2")
    rfl rfl rfl rfl rfl rfl rfl rfl).2).1

open Nimbus Nimbus.amis in
/-- Claim C7: within each compiled describe-images filter group, a selector
with no owner criterion (and which is not a pure id selector) gets the
default `owner-alias` filter with values exactly `self` and `amazon`; a
selector with an owner criterion instead gets an `owner-alias` filter on that
owner value and the default filter is absent.  Groups are paired with their
selectors positionally. -/
theorem c7_owner_alias_default (sels : List Selector) :
    List.Forall₂ (fun term g =>
      (term.OwnerID = "" → ¬ pureIdSelector term → ownerAliasDefault ∈ g) ∧
      (term.OwnerID ≠ "" →
        EC2Filter.mk "owner-alias" [term.OwnerID] ∈ g ∧ ownerAliasDefault ∉ g))
      sels (filterSets sels) := by
  induction sels with
  | nil => exact List.Forall₂.nil
  | cons term rest ih =>
    refine List.Forall₂.cons ⟨?_, ?_⟩ ih
    · intro hov _
      simp [filterSets, amiTermFilters, hov]
    · intro hov
      constructor
      · simp [filterSets, amiTermFilters, hov]
      · intro hmem
        rcases mem_amiTermFilters term _ hmem with ⟨x, hx⟩ | ⟨_, hov0⟩
        · simp [ownerAliasDefault] at hx
        · exact hov hov0

open Nimbus Nimbus.amis in
/-- Witness for C7 at concrete selectors: a tag-only selector receives the
default owner filter; an owner selector receives its own owner filter and
not the default. -/
theorem c7_owner_alias_default_witness :
    (ownerAliasDefault ∈
      ((filterSets [{ Tags := [("team", "a")] }]).headI) ∧
     EC2Filter.mk "owner-alias" ["123"] ∈
      ((filterSets [{ OwnerID := "123" }]).headI) ∧
     ownerAliasDefault ∉ ((filterSets [{ OwnerID := "123" }]).headI)) := by
  have h1 := c7_owner_alias_default [{ Tags := [("team", "a")] }]
  have h2 := c7_owner_alias_default [{ OwnerID := "123" }]
  cases h1 with
  | cons hp _ =>
    cases h2 with
    | cons hq _ =>
      refine ⟨hp.1 rfl ?_, (hq.2 (by decide)).1, (hq.2 (by decide)).2⟩
      intro hpure
      rcases hpure with ⟨hid, _⟩
      exact hid rfl

open Nimbus Nimbus.selectors in
/-- Claim C5, counterexample: `ParseSelectorsTokens` does not equal the
reference grammar of the claim on the concrete input `" id:x"`.  The
implementation trims the whole input first and parses the keyword `id`,
while the grammar as stated by the claim parses the keyword `" id"`
(with its leading space, lower-cased). -/
theorem c5_counterexample :
    ParseSelectorsTokens " id:x".toList ≠ refParse " id:x".toList := by
  decide

open Nimbus Nimbus.selectors in
/-- Claim C5 (amended): `ParseSelectorsTokens` equals the reference grammar
of the claim applied after first trimming whitespace around the whole input
and dropping the terms that are empty or whitespace-only; it returns an error
exactly when some kept term contains a criterion lacking a `:` or a tag
criterion whose value has more than one `=`; and the empty input parses to
the empty selector list with no error. -/
theorem c5_selector_grammar_amended :
    (∀ s : Str, ParseSelectorsTokens s = refTerms (keptTerms s)) ∧
    (∀ s : Str, isErr (ParseSelectorsTokens s) = true ↔
      ∃ t ∈ keptTerms s, ∃ c ∈ splitOnChar ',' t, badCriterion c) ∧
    ParseSelectorsTokens [] = .ok [] := by
  refine ⟨fun s => ?_, fun s => ?_, by decide⟩
  · unfold ParseSelectorsTokens keptTerms
    exact parseTerms_eq_refTerms _
  · unfold ParseSelectorsTokens keptTerms
    rw [parseTerms_eq_refTerms]
    exact refTerms_error_iff _

open Nimbus Nimbus.selectors in
/-- Witness for C5's amended theorem at concrete inputs. -/
theorem c5_selector_grammar_amended_witness :
    ParseSelectorsTokens "tag:Name=foo;id:r-1".toList =
      refTerms (keptTerms "tag:Name=foo;id:r-1".toList) ∧
    (isErr (ParseSelectorsTokens "badcriterion".toList) = true ↔
      ∃ t ∈ keptTerms "badcriterion".toList,
        ∃ c ∈ splitOnChar ',' t, badCriterion c) :=
  ⟨c5_selector_grammar_amended.1 _, c5_selector_grammar_amended.2.1 _⟩

open Nimbus Nimbus.selectors in
/-- Claim C9, counterexample: whitespace around an interior criterion is not
trimmed.  `"tag:a=b, id:x"` parses the keyword `" id"` (with a space), while
the same input with the space removed parses the keyword `"id"`, so the two
parses differ. -/
theorem c9_counterexample :
    ParseSelectorsTokens "tag:a=b, id:x".toList ≠
      ParseSelectorsTokens "tag:a=b,id:x".toList := by
  decide

open Nimbus Nimbus.selectors in
/-- Claim C9 (amended): only whitespace around the *entire* input is trimmed
before parsing (so surrounding the whole input with whitespace never changes
the parse), and a term consisting entirely of whitespace is dropped silently;
whitespace around interior terms or criteria is preserved and becomes part of
the parsed keywords and values. -/
theorem c9_whitespace_amended :
    (∀ ws1 s ws2 : Str, (∀ c ∈ ws1, isSpaceChar c = true) →
      (∀ c ∈ ws2, isSpaceChar c = true) →
      ParseSelectorsTokens (ws1 ++ s ++ ws2) = ParseSelectorsTokens s) ∧
    (∀ (ts1 : List Str) (t : Str) (ts2 : List Str), trimStr t = [] →
      parseTerms (ts1 ++ t :: ts2) = parseTerms (ts1 ++ ts2)) := by
  constructor
  · intro ws1 s ws2 h1 h2
    unfold ParseSelectorsTokens
    rw [trimStr_space_right (ws1 ++ s) ws2 h2, trimStr_space_left ws1 s h1]
  · intro ts1 t ts2 ht
    induction ts1 with
    | nil => simp [parseTerms, ht]
    | cons a ts1' ih =>
      by_cases ha : trimStr a = [] <;> simp [parseTerms, ha, ih]

open Nimbus Nimbus.selectors in
/-- Witness for C9's amended theorem at concrete inputs. -/
theorem c9_whitespace_amended_witness :
    ParseSelectorsTokens (" ".toList ++ "id:x".toList ++ " ".toList) =
      ParseSelectorsTokens "id:x".toList ∧
    parseTerms (["id:x".toList] ++ " ".toList :: ["tag:a".toList]) =
      parseTerms (["id:x".toList] ++ ["tag:a".toList]) :=
  ⟨c9_whitespace_amended.1 " ".toList "id:x".toList " ".toList
      (by decide) (by decide),
    c9_whitespace_amended.2 ["id:x".toList] " ".toList ["tag:a".toList] (by decide)⟩

example :
    Nimbus.selectors.ParseSelectorsTokens "tag:Name=foo,tag:Owner=bar".toList =
      .ok [{ Tags := [("Name".toList, "foo".toList), ("Owner".toList, "bar".toList)] }] := by
  decide

example :
    Nimbus.selectors.ParseSelectorsTokens "tag:Name=foo;id:r-123".toList =
      .ok [{ Tags := [("Name".toList, "foo".toList)] },
           { KeyVals := [("id".toList, "r-123".toList)] }] := by
  decide

example : Nimbus.selectors.ParseSelectorsTokens "".toList = .ok [] := by decide

example :
    Nimbus.selectors.ParseSelectorsTokens "badcriterion".toList =
      .error (.invalidSelector "badcriterion".toList) := by decide

/-! ## Provisioning orchestrator (`pkg/vm/vm.go` `Launch`) -/

namespace Nimbus

namespace vm

open plans

/-- Go struct `vpcs.Selector` (fields used by `Launch`). -/
structure VPCSelector where
  Tags : List (String × String) := []
  ID   : String := ""
  deriving DecidableEq, Repr

/-- Go struct `subnets.Selector`. -/
structure SubnetSelector where
  Tags  : List (String × String) := []
  ID    : String := ""
  VPCID : String := ""
  deriving DecidableEq, Repr

/-- Go struct `securitygroups.Selector`. -/
structure SGSelector where
  Tags : List (String × String) := []
  Name : String := ""
  ID   : String := ""
  deriving DecidableEq, Repr

/-- Go struct `launchtemplates.Selector`. -/
structure LTSelector where
  Tags : List (String × String) := []
  ID   : String := ""
  Name : String := ""
  deriving DecidableEq, Repr

/-- Go struct `fleets.Selector`. -/
structure FleetSelector where
  Tags : List (String × String) := []
  ID   : String := ""
  deriving DecidableEq, Repr

/-- Go struct `instancetypes.Selector`.  The instance-type provider is not
part of this source tree; `Launch` only passes these selectors through to the
provider, so the selector is modelled as an opaque token. -/
structure InstanceTypeSelector where
  deriving DecidableEq, Repr

/-- An availability zone, reduced to the zone name `Launch` reads. -/
structure AvailabilityZone where
  ZoneName : String
  deriving DecidableEq, Repr

/-- Go struct `subnets.SubnetSpec`. -/
structure SubnetSpec where
  AZ     : String
  CIDR   : String
  Public : Bool
  deriving DecidableEq, Repr

/-- Go struct `securitygroups.CreateSecurityGroupOpts`. -/
structure CreateSecurityGroupOpts where
  Name  : String
  VPCID : String
  deriving DecidableEq, Repr

/-- `ec2types.DescribeFleetsInstances`: one batch of launched instance ids. -/
structure DescribeFleetsInstances where
  InstanceIds : List String
  deriving DecidableEq, Repr

/-- A fleet as resolved by the fleet watcher (`fleets.Fleet`), reduced to the
instance batches `Launch` reads. -/
structure Fleet where
  Instances : List DescribeFleetsInstances
  deriving DecidableEq, Repr

/-- Tag key `nimbus-Namespace` (`tagutils.NamespaceTagKey`). -/
def NamespaceTagKey : String := "nimbus-Namespace"

/-- Tag key `nimbus-Name` (`tagutils.NameTagKey`). -/
def NameTagKey : String := "nimbus-Name"

/-- Tag key `nimbus-CreatedBy` (`tagutils.CreatedByTagKey`). -/
def CreatedByTagKey : String := "nimbus-CreatedBy"

/-- Embedding of `tagutils.NamespacedTags` (`ns`, `nm` are the Go
parameters `namespace` and `name`). -/
def NamespacedTags (ns nm : String) : List (String × String) :=
  [(NamespaceTagKey, ns), (CreatedByTagKey, "nimbus")] ++
  (if nm ≠ "" then [("Name", ns ++ "/" ++ nm), (NameTagKey, nm)]
   else [])

/-- Go struct `plans.LaunchMetadata`. -/
structure LaunchMetadata where
  Namespace : String := ""
  Name      : String := ""
  deriving DecidableEq, Repr

/-- Go struct `plans.LaunchSpec`. -/
structure LaunchSpec where
  CapacityType           : String := ""
  InstanceTypeSelectors  : List InstanceTypeSelector := []
  SubnetSelectors        : List SubnetSelector := []
  SecurityGroupSelectors : List SGSelector := []
  AMISelectors           : List amis.Selector := []
  IAMRole                : String := ""
  UserData               : String := ""
  deriving DecidableEq, Repr

/-- Go struct `plans.LaunchStatus` (zero values model the nil-pointer SDK
structs of the Go zero value). -/
structure LaunchStatus where
  VPC             : VPC := ⟨""⟩
  Subnets         : List fleets.Subnet := []
  RouteTables     : List RouteTable := []
  InternetGateway : InternetGateway := ⟨""⟩
  SecurityGroups  : List SecurityGroup := []
  AMIs            : List fleets.AMI := []
  InstanceTypes   : List fleets.InstanceType := []
  Instances       : List instances.Instance := []
  LaunchTemplate  : fleets.LaunchTemplate := ⟨""⟩
  deriving DecidableEq, Repr

/-- Go struct `plans.LaunchPlan`. -/
structure LaunchPlan where
  Metadata : LaunchMetadata := {}
  Spec     : LaunchSpec := {}
  Status   : LaunchStatus := {}
  deriving DecidableEq, Repr

/-- The errors `Launch` can return.  `provider` wraps an error returned by a
watcher call; the other constructors are the `fmt.Errorf` values created in
`vm.go` itself: the two network-selection validation errors (vm.go:86 and
vm.go:89), the two launch-template resolution consistency errors
(vm.go:202 and vm.go:205) and the missing-fleet error (vm.go:228). -/
inductive LaunchError where
  | provider (e : AWSError)
  | sgWithoutSubnet
  | subnetWithoutSg
  | tooManyLaunchTemplates (n : Nat)
  | launchTemplateNotFound (id : String)
  | fleetNotFound (id : String)
  deriving DecidableEq, Repr

/-- The `IncompleteNetworkSelection` error class of the specification: one of
the two validation errors of vm.go:85-90. -/
def IncompleteNetworkSelection (e : LaunchError) : Prop :=
  e = .sgWithoutSubnet ∨ e = .subnetWithoutSg

instance (e : LaunchError) : Decidable (IncompleteNetworkSelection e) := by
  unfold IncompleteNetworkSelection
  infer_instance

/-- The cloud calls `Launch` can issue, in the order its steps make them. -/
inductive CallEvent where
  | amiResolveCall
  | instanceTypeResolveCall
  | subnetResolveCall
  | vpcResolveCall
  | azResolveCall
  | sgResolveCall
  | ltResolveCall
  | fleetResolveCall
  | instanceResolveCall
  | vpcCreateCall
  | subnetCreateCall
  | igwCreateCall
  | routeTableCreateCall
  | sgCreateCall
  | ltCreateCall
  | fleetCreateCall
  deriving DecidableEq, Repr

/-- Whether a call mutates cloud state by creating a resource (the
`Create`/`CreateFleet`/`CreateLaunchTemplate`/`CreateSecurityGroup`
watcher calls), as opposed to a read-only `Resolve`. -/
def CallEvent.isCreate : CallEvent → Bool
  | .vpcCreateCall | .subnetCreateCall | .igwCreateCall | .routeTableCreateCall
  | .sgCreateCall | .ltCreateCall | .fleetCreateCall => true
  | _ => false

/-- The watcher operations `Launch` calls, as oracle functions. -/
structure LaunchEnv where
  amiResolve          : List amis.Selector → Except AWSError (List fleets.AMI)
  instanceTypeResolve : List InstanceTypeSelector → Except AWSError (List fleets.InstanceType)
  subnetResolve       : List SubnetSelector → Except AWSError (List fleets.Subnet)
  vpcResolve          : List VPCSelector → Except AWSError (List VPC)
  vpcCreate           : String → String → String → Except AWSError VPC
  azResolve           : Except AWSError (List AvailabilityZone)
  subnetCreate        : String → String → VPC → List SubnetSpec → Except AWSError (List fleets.Subnet)
  igwCreate           : String → String → VPC → Except AWSError InternetGateway
  routeTableCreate    : String → String → List fleets.Subnet → InternetGateway →
                          Except AWSError (RouteTable × Option RouteTable)
  sgResolve           : List SGSelector → Except AWSError (List SecurityGroup)
  sgCreate            : String → String → CreateSecurityGroupOpts → Except AWSError String
  ltCreate            : String → String → String → List SecurityGroup → Except AWSError String
  ltResolve           : List LTSelector → Except AWSError (List fleets.LaunchTemplate)
  fleetCreate         : fleets.CreateFleetOptions → Except AWSError String
  fleetResolve        : List FleetSelector → Except AWSError (List Fleet)
  instanceResolve     : List instances.Selector → Except AWSError (List instances.Instance)

/-- The result of `Launch`: the (possibly partially populated) plan, the
returned error, and the ordered trace of cloud calls issued. -/
structure LaunchResult where
  plan  : LaunchPlan
  error : Option LaunchError
  calls : List CallEvent
  deriving Repr

end vm

end Nimbus

namespace Nimbus

namespace vm

open plans

/-- Embedding of vm.go:111-158: if no VPC tagged with the namespace exists,
create a VPC (`10.0.0.0/16`), pick up to 3 availability zones, create one
public `/24` subnet per zone, create and attach an Internet Gateway, and
create the public route table; if a VPC already exists, reuse it and resolve
its subnets (note: the source stores the VPC in the status but does not
store the resolved subnets in this branch). -/
def launchNetworkVPC (env : LaunchEnv) (plan : LaunchPlan)
    (existingVPCs : List VPC) : LaunchResult :=
  match existingVPCs with
  | [] =>
    match env.vpcCreate plan.Metadata.Namespace plan.Metadata.Name "10.0.0.0/16" with
    | .error e => ⟨plan, some (.provider e), [.vpcCreateCall]⟩
    | .ok vpc =>
      let plan1 := { plan with Status.VPC := vpc }
      match env.azResolve with
      | .error e => ⟨plan1, some (.provider e), [.vpcCreateCall, .azResolveCall]⟩
      | .ok availabilityZones =>
        let subnetSpecs := (availabilityZones.take 3).enum.map
          (fun iaz => SubnetSpec.mk iaz.2.ZoneName
            ("10.0." ++ toString iaz.1 ++ ".0/24") true)
        match env.subnetCreate plan.Metadata.Namespace plan.Metadata.Name
            vpc subnetSpecs with
        | .error e =>
          ⟨plan1, some (.provider e),
            [.vpcCreateCall, .azResolveCall, .subnetCreateCall]⟩
        | .ok subnetList =>
          let plan2 := { plan1 with Status.Subnets := subnetList }
          match env.igwCreate plan.Metadata.Namespace plan.Metadata.Name vpc with
          | .error e =>
            ⟨plan2, some (.provider e),
              [.vpcCreateCall, .azResolveCall, .subnetCreateCall, .igwCreateCall]⟩
          | .ok igw =>
            let plan3 := { plan2 with Status.InternetGateway := igw }
            match env.routeTableCreate plan.Metadata.Namespace plan.Metadata.Name
                subnetList igw with
            | .error e =>
              ⟨plan3, some (.provider e),
                [.vpcCreateCall, .azResolveCall, .subnetCreateCall,
                 .igwCreateCall, .routeTableCreateCall]⟩
            | .ok rt =>
              ⟨{ plan3 with
                  Status.RouteTables := plan3.Status.RouteTables ++ [rt.1] },
                none,
                [.vpcCreateCall, .azResolveCall, .subnetCreateCall,
                 .igwCreateCall, .routeTableCreateCall]⟩
  | vpc :: _ =>
    match env.subnetResolve [{ VPCID := vpc.VpcId }] with
    | .error e => ⟨plan, some (.provider e), [.subnetResolveCall]⟩
    | .ok _subnetList =>
      -- vm.go:149-158: Status.VPC is set; Status.Subnets is not
      ⟨{ plan with Status.VPC := vpc }, none, [.subnetResolveCall]⟩

/-- Embedding of vm.go:92-180: resolve the subnets from the spec selectors if
given, otherwise bootstrap or reuse the namespace network, then resolve or
create the namespace security group.  The error of the security-group
`Resolve` at vm.go:160-163 is discarded by the source (`err` is assigned but
never checked), which this embedding reproduces. -/
def launchNetwork (env : LaunchEnv) (plan : LaunchPlan) : LaunchResult :=
  if plan.Spec.SubnetSelectors ≠ [] then
    match env.subnetResolve plan.Spec.SubnetSelectors with
    | .error e => ⟨plan, some (.provider e), [.subnetResolveCall]⟩
    | .ok subnetList =>
      ⟨{ plan with Status.Subnets := subnetList }, none, [.subnetResolveCall]⟩
  else
    match env.vpcResolve [{ Tags := [(NamespaceTagKey, plan.Metadata.Namespace)] }] with
    | .error e => ⟨plan, some (.provider e), [.vpcResolveCall]⟩
    | .ok existingVPCs =>
      match launchNetworkVPC env plan existingVPCs with
      | ⟨plan1, some e, calls⟩ => ⟨plan1, some e, .vpcResolveCall :: calls⟩
      | ⟨plan1, none, calls⟩ =>
        -- vm.go:160-163: the err of this Resolve is silently discarded
        let securityGroups :=
          match env.sgResolve [{ Tags := (NamespacedTags
              plan.Metadata.Namespace plan.Metadata.Name) }] with
          | .ok l => l
          | .error _ => []
        if securityGroups.length = 0 then
          match env.sgCreate plan.Metadata.Namespace plan.Metadata.Name
              ⟨plan.Metadata.Namespace ++ "/" ++ plan.Metadata.Name,
               plan1.Status.VPC.VpcId⟩ with
          | .error e =>
            ⟨plan1, some (.provider e),
              .vpcResolveCall :: calls ++ [.sgResolveCall, .sgCreateCall]⟩
          | .ok sgID =>
            match env.sgResolve [{ ID := sgID }] with
            | .error e =>
              ⟨plan1, some (.provider e),
                .vpcResolveCall :: calls ++
                  [.sgResolveCall, .sgCreateCall, .sgResolveCall]⟩
            | .ok securityGroups2 =>
              ⟨{ plan1 with Status.SecurityGroups := securityGroups2 }, none,
                .vpcResolveCall :: calls ++
                  [.sgResolveCall, .sgCreateCall, .sgResolveCall]⟩
        else
          ⟨{ plan1 with Status.SecurityGroups := securityGroups }, none,
            .vpcResolveCall :: calls ++ [.sgResolveCall]⟩

/-- Embedding of vm.go:182-188: explicitly supplied security-group selectors
override the bootstrap-resolved group. -/
def launchSgOverride (env : LaunchEnv) (plan : LaunchPlan) : LaunchResult :=
  if plan.Spec.SecurityGroupSelectors ≠ [] then
    match env.sgResolve plan.Spec.SecurityGroupSelectors with
    | .error e => ⟨plan, some (.provider e), [.sgResolveCall]⟩
    | .ok securityGroups =>
      ⟨{ plan with Status.SecurityGroups := securityGroups }, none, [.sgResolveCall]⟩
  else ⟨plan, none, []⟩

/-- Embedding of vm.go:195-207: resolve the launch template by namespace tag;
more than one resolved template, or none, is a fatal consistency error. -/
def launchLtResolve (env : LaunchEnv) (plan : LaunchPlan)
    (launchTemplateID : String) (calls : List CallEvent) : LaunchResult :=
  match env.ltResolve [{ Tags := (NamespacedTags
      plan.Metadata.Namespace plan.Metadata.Name) }] with
  | .error e => ⟨plan, some (.provider e), calls ++ [.ltResolveCall]⟩
  | .ok launchTemplates =>
    if launchTemplates.length > 1 then
      ⟨plan, some (.tooManyLaunchTemplates launchTemplates.length),
        calls ++ [.ltResolveCall]⟩
    else
      match launchTemplates with
      | [] =>
        ⟨plan, some (.launchTemplateNotFound launchTemplateID),
          calls ++ [.ltResolveCall]⟩
      | lt :: _ =>
        ⟨{ plan with Status.LaunchTemplate := lt }, none, calls ++ [.ltResolveCall]⟩

/-- Embedding of vm.go:190-207: create the launch template, treating the
"already exists" error class as success (`ec2utils.IsAlreadyExistsErr`), then
resolve it. -/
def launchLaunchTemplate (env : LaunchEnv) (plan : LaunchPlan) : LaunchResult :=
  match env.ltCreate plan.Metadata.Namespace plan.Metadata.Name
      plan.Spec.UserData plan.Status.SecurityGroups with
  | .error e =>
    if IsAlreadyExistsErr e then
      -- the id of the Go zero return value accompanies the tolerated error
      launchLtResolve env plan "" [.ltCreateCall]
    else ⟨plan, some (.provider e), [.ltCreateCall]⟩
  | .ok launchTemplateID => launchLtResolve env plan launchTemplateID [.ltCreateCall]

/-- Embedding of vm.go:209-244: submit the capacity request, resolve the
fleet, then resolve the launched instance ids into `Instance` resources.
The final resolution's error is discarded by the source
(vm.go:239-242 returns `nil` in its error branch), which this embedding
reproduces. -/
def launchFleet (env : LaunchEnv) (plan : LaunchPlan) : LaunchResult :=
  match env.fleetCreate
      { Name := plan.Metadata.Name
        Namespace := plan.Metadata.Namespace
        LaunchTemplate := plan.Status.LaunchTemplate
        InstanceTypes := plan.Status.InstanceTypes
        Subnets := plan.Status.Subnets
        AMIs := plan.Status.AMIs
        IAMRole := plan.Spec.IAMRole
        CapacityType := plan.Spec.CapacityType } with
  | .error e => ⟨plan, some (.provider e), [.fleetCreateCall]⟩
  | .ok fleetID =>
    match env.fleetResolve [{ ID := fleetID }] with
    | .error e => ⟨plan, some (.provider e), [.fleetCreateCall, .fleetResolveCall]⟩
    | .ok fleetList =>
      match fleetList with
      | [] =>
        ⟨plan, some (.fleetNotFound fleetID), [.fleetCreateCall, .fleetResolveCall]⟩
      | fleet :: _ =>
        let instanceIDSelectors := fleet.Instances.flatMap
          (fun fi => fi.InstanceIds.map
            (fun instanceID => ({ ID := instanceID } : instances.Selector)))
        match env.instanceResolve instanceIDSelectors with
        | .error _ =>
          -- BUG preserved from vm.go:239-242: `return launchPlan, nil`
          -- discards the resolution error
          ⟨plan, none, [.fleetCreateCall, .fleetResolveCall, .instanceResolveCall]⟩
        | .ok launchedInstances =>
          ⟨{ plan with Status.Instances := launchedInstances }, none,
            [.fleetCreateCall, .fleetResolveCall, .instanceResolveCall]⟩

/-- The sequence of `Launch`'s steps after validation (vm.go:92-244):
network resolution/bootstrap, security-group override, launch template,
fleet; each step failing fast with the partial plan and the calls issued
so far. -/
def launchSteps (env : LaunchEnv) (plan : LaunchPlan) : LaunchResult :=
  match launchNetwork env plan with
  | ⟨plan3, some e, calls3⟩ => ⟨plan3, some e, calls3⟩
  | ⟨plan3, none, calls3⟩ =>
    match launchSgOverride env plan3 with
    | ⟨plan4, some e, calls4⟩ => ⟨plan4, some e, calls3 ++ calls4⟩
    | ⟨plan4, none, calls4⟩ =>
      match launchLaunchTemplate env plan4 with
      | ⟨plan5, some e, calls5⟩ => ⟨plan5, some e, calls3 ++ calls4 ++ calls5⟩
      | ⟨plan5, none, calls5⟩ =>
        match launchFleet env plan5 with
        | ⟨plan6, err6, calls6⟩ =>
          ⟨plan6, err6, calls3 ++ calls4 ++ calls5 ++ calls6⟩

/-- Embedding of `vm.Launch` (vm.go:68-245): reset the status, resolve AMIs
and instance types, validate the subnet/security-group selector invariant,
then run the network, security-group override, launch-template and fleet
steps, each failing fast with the partial plan. -/
def Launch (env : LaunchEnv) (dryRun : Bool) (launchPlan : LaunchPlan) :
    LaunchResult :=
  let plan0 := { launchPlan with Status := {} }
  match env.amiResolve plan0.Spec.AMISelectors with
  | .error e => ⟨plan0, some (.provider e), [.amiResolveCall]⟩
  | .ok amiList =>
    let plan1 := { plan0 with Status.AMIs := amiList }
    match env.instanceTypeResolve plan1.Spec.InstanceTypeSelectors with
    | .error e =>
      ⟨plan1, some (.provider e), [.amiResolveCall, .instanceTypeResolveCall]⟩
    | .ok instanceTypes =>
      let plan2 := { plan1 with Status.InstanceTypes := instanceTypes }
      if plan2.Spec.SecurityGroupSelectors ≠ [] ∧ plan2.Spec.SubnetSelectors = [] then
        ⟨plan2, some .sgWithoutSubnet, [.amiResolveCall, .instanceTypeResolveCall]⟩
      else if plan2.Spec.SubnetSelectors ≠ [] ∧
          plan2.Spec.SecurityGroupSelectors = [] then
        ⟨plan2, some .subnetWithoutSg, [.amiResolveCall, .instanceTypeResolveCall]⟩
      else
        match launchSteps env plan2 with
        | ⟨planN, err, calls⟩ =>
          ⟨planN, err, [.amiResolveCall, .instanceTypeResolveCall] ++ calls⟩

end vm

end Nimbus

namespace Nimbus

namespace vm

/-! ### Which stages can produce the network-selection validation errors -/

theorem launchNetworkVPC_no_ins (env : LaunchEnv) (plan : LaunchPlan)
    (existingVPCs : List plans.VPC) (e : LaunchError)
    (h : (launchNetworkVPC env plan existingVPCs).error = some e) :
    ¬ IncompleteNetworkSelection e := by
  unfold launchNetworkVPC at h
  repeat' (first | (split at h) | (dsimp only at h))
  all_goals (try cases h)
  all_goals simp_all [IncompleteNetworkSelection]

theorem launchNetwork_no_ins (env : LaunchEnv) (plan : LaunchPlan)
    (e : LaunchError) (h : (launchNetwork env plan).error = some e) :
    ¬ IncompleteNetworkSelection e := by
  unfold launchNetwork at h
  split at h
  · split at h
    all_goals dsimp only at h
    all_goals (try cases h)
    all_goals simp_all [IncompleteNetworkSelection]
  · split at h
    · dsimp only at h
      cases h
      simp [IncompleteNetworkSelection]
    · split at h
      · rename_i plan1 e2 calls heq
        simp only [LaunchResult.error] at h
        cases h
        exact launchNetworkVPC_no_ins env plan _ e (by rw [heq])
      · repeat' (first | (split at h) | (dsimp only at h))
        all_goals (try cases h)
        all_goals simp_all [IncompleteNetworkSelection]

theorem launchSgOverride_no_ins (env : LaunchEnv) (plan : LaunchPlan)
    (e : LaunchError) (h : (launchSgOverride env plan).error = some e) :
    ¬ IncompleteNetworkSelection e := by
  unfold launchSgOverride at h
  repeat' (first | (split at h) | (dsimp only at h))
  all_goals (try cases h)
  all_goals simp_all [IncompleteNetworkSelection]

theorem launchLtResolve_no_ins (env : LaunchEnv) (plan : LaunchPlan)
    (launchTemplateID : String) (calls : List CallEvent) (e : LaunchError)
    (h : (launchLtResolve env plan launchTemplateID calls).error = some e) :
    ¬ IncompleteNetworkSelection e := by
  unfold launchLtResolve at h
  repeat' (first | (split at h) | (dsimp only at h))
  all_goals (try cases h)
  all_goals simp_all [IncompleteNetworkSelection]

theorem launchLaunchTemplate_no_ins (env : LaunchEnv) (plan : LaunchPlan)
    (e : LaunchError) (h : (launchLaunchTemplate env plan).error = some e) :
    ¬ IncompleteNetworkSelection e := by
  unfold launchLaunchTemplate at h
  split at h
  · split at h
    · exact launchLtResolve_no_ins env plan _ _ e h
    · dsimp only at h
      cases h
      simp [IncompleteNetworkSelection]
  · exact launchLtResolve_no_ins env plan _ _ e h

theorem launchFleet_no_ins (env : LaunchEnv) (plan : LaunchPlan)
    (e : LaunchError) (h : (launchFleet env plan).error = some e) :
    ¬ IncompleteNetworkSelection e := by
  unfold launchFleet at h
  repeat' (first | (split at h) | (dsimp only at h))
  all_goals (try cases h)
  all_goals simp_all [IncompleteNetworkSelection]

end vm

end Nimbus

namespace Nimbus

namespace vm

theorem launchSteps_no_ins (env : LaunchEnv) (plan : LaunchPlan)
    (e : LaunchError) (h : (launchSteps env plan).error = some e) :
    ¬ IncompleteNetworkSelection e := by
  unfold launchSteps at h
  revert h
  rcases hN : launchNetwork env plan with ⟨p3, e3, c3⟩
  cases e3 with
  | some e3 =>
    intro h
    dsimp only at h
    cases h
    exact launchNetwork_no_ins env plan _ (by rw [hN])
  | none =>
    dsimp only
    rcases hO : launchSgOverride env p3 with ⟨p4, e4, c4⟩
    cases e4 with
    | some e4 =>
      intro h
      dsimp only at h
      cases h
      exact launchSgOverride_no_ins env p3 _ (by rw [hO])
    | none =>
      dsimp only
      rcases hL : launchLaunchTemplate env p4 with ⟨p5, e5, c5⟩
      cases e5 with
      | some e5 =>
        intro h
        dsimp only at h
        cases h
        exact launchLaunchTemplate_no_ins env p4 _ (by rw [hL])
      | none =>
        dsimp only
        rcases hF : launchFleet env p5 with ⟨p6, e6, c6⟩
        intro h
        dsimp only at h
        exact launchFleet_no_ins env p5 e (by rw [hF]; exact h)

/-- A launch environment where every watcher call succeeds except the final
instance resolution, whose error `Launch` discards (vm.go:239-242). -/
def c1Env : LaunchEnv where
  amiResolve := fun _ => .ok [⟨"ami-1", "x86_64"⟩]
  instanceTypeResolve := fun _ => .ok [⟨"m5.large", ["x86_64"]⟩]
  subnetResolve := fun _ => .ok [⟨"subnet-1"⟩]
  vpcResolve := fun _ => .ok []
  vpcCreate := fun _ _ _ => .ok ⟨"vpc-1"⟩
  azResolve := .ok []
  subnetCreate := fun _ _ _ _ => .ok []
  igwCreate := fun _ _ _ => .ok ⟨"igw-1"⟩
  routeTableCreate := fun _ _ _ _ => .ok (⟨"rtb-1"⟩, none)
  sgResolve := fun _ => .ok [⟨"sg-1"⟩]
  sgCreate := fun _ _ _ => .ok "sg-1"
  ltCreate := fun _ _ _ _ => .ok "lt-1"
  ltResolve := fun _ => .ok [⟨"lt-1"⟩]
  fleetCreate := fun _ => .ok "fleet-1"
  fleetResolve := fun _ => .ok [⟨[⟨["i-1"]⟩]⟩]
  instanceResolve := fun _ => .error ⟨"InternalError", "instance resolve failed"⟩

/-- A launch plan that supplies both subnet and security-group selectors. -/
def c1Plan : LaunchPlan :=
  { Metadata := ⟨"ns", "vm1"⟩,
    Spec := { SubnetSelectors := [{ ID := "subnet-1" }],
              SecurityGroupSelectors := [{ ID := "sg-1" }] } }

end vm

end Nimbus

open Nimbus Nimbus.vm in
/-- Claim C1: contrary to the claim, not every step's error is propagated.
In an environment where every step succeeds except the final resolution of
the launched instance ids, that resolution's error is silently discarded:
`Launch` issues the instance-resolve call, receives an error, and still
returns a `nil` error (`return launchPlan, nil` at vm.go:241; the
security-group `Resolve` error at vm.go:160-163 is likewise unchecked). -/
theorem c1_launch_swallows_error :
    (Launch c1Env false c1Plan).error = none ∧
    c1Env.instanceResolve [{ ID := "i-1" }] =
      .error ⟨"InternalError", "instance resolve failed"⟩ ∧
    CallEvent.instanceResolveCall ∈ (Launch c1Env false c1Plan).calls := by
  refine ⟨rfl, rfl, ?_⟩
  decide

open Nimbus Nimbus.vm in
/-- Claim C4: if exactly one of the subnet selectors and the security-group
selectors is non-empty (and the two preceding read-only resolutions
succeed), `Launch` fails with one of the two `IncompleteNetworkSelection`
validation errors and its call trace contains no resource-creating cloud
call; if both or neither are supplied, no `IncompleteNetworkSelection` error
is ever returned. -/
theorem c4_incomplete_network_selection :
    (∀ (env : LaunchEnv) (b : Bool) (plan : LaunchPlan),
      (∃ l, env.amiResolve plan.Spec.AMISelectors = .ok l) →
      (∃ l, env.instanceTypeResolve plan.Spec.InstanceTypeSelectors = .ok l) →
      ((plan.Spec.SubnetSelectors = [] ∧ plan.Spec.SecurityGroupSelectors ≠ []) ∨
       (plan.Spec.SubnetSelectors ≠ [] ∧ plan.Spec.SecurityGroupSelectors = [])) →
      (∃ e, (Launch env b plan).error = some e ∧ IncompleteNetworkSelection e) ∧
      (∀ c ∈ (Launch env b plan).calls, c.isCreate = false)) ∧
    (∀ (env : LaunchEnv) (b : Bool) (plan : LaunchPlan),
      ¬ ((plan.Spec.SubnetSelectors = [] ∧ plan.Spec.SecurityGroupSelectors ≠ []) ∨
         (plan.Spec.SubnetSelectors ≠ [] ∧ plan.Spec.SecurityGroupSelectors = [])) →
      ∀ e, (Launch env b plan).error = some e → ¬ IncompleteNetworkSelection e) := by
  constructor
  · intro env b plan hA hI hxor
    obtain ⟨la, ha⟩ := hA
    obtain ⟨li, hi⟩ := hI
    unfold Launch
    dsimp only
    rw [ha]
    dsimp only
    rw [hi]
    dsimp only
    rcases hxor with ⟨hsub, hsg⟩ | ⟨hsub, hsg⟩
    · split
      · refine ⟨⟨.sgWithoutSubnet, rfl, Or.inl rfl⟩, ?_⟩
        intro c hc
        rcases List.mem_cons.mp hc with rfl | hc
        · rfl
        · rcases List.mem_cons.mp hc with rfl | hc
          · rfl
          · cases hc
      · rename_i hcond
        exact (hcond ⟨hsg, hsub⟩).elim
    · split
      · rename_i hcond
        exact (hcond.1 hsg).elim
      · split
        · refine ⟨⟨.subnetWithoutSg, rfl, Or.inr rfl⟩, ?_⟩
          intro c hc
          rcases List.mem_cons.mp hc with rfl | hc
          · rfl
          · rcases List.mem_cons.mp hc with rfl | hc
            · rfl
            · cases hc
        · rename_i hcond2
          exact (hcond2 ⟨hsub, hsg⟩).elim
  · intro env b plan hnxor e h
    unfold Launch at h
    dsimp only at h
    split at h
    · dsimp only at h
      cases h
      simp [IncompleteNetworkSelection]
    · split at h
      · dsimp only at h
        cases h
        simp [IncompleteNetworkSelection]
      · split at h
        · rename_i hcond1
          dsimp only at h
          cases h
          exact (hnxor (Or.inl ⟨hcond1.2, hcond1.1⟩)).elim
        · split at h
          · rename_i hcond2
            dsimp only at h
            cases h
            exact (hnxor (Or.inr hcond2)).elim
          · dsimp only at h
            exact launchSteps_no_ins env _ e h

open Nimbus Nimbus.vm in
/-- Witness for C4 at a concrete environment and plan supplying only a
security-group selector. -/
theorem c4_incomplete_network_selection_witness :
    (∃ e, (Launch c1Env false
        { Metadata := ⟨"ns", "vm1"⟩,
          Spec := { SecurityGroupSelectors := [{ ID := "sg-1" }] } }).error =
          some e ∧ IncompleteNetworkSelection e) ∧
    (∀ c ∈ (Launch c1Env false
        { Metadata := ⟨"ns", "vm1"⟩,
          Spec := { SecurityGroupSelectors := [{ ID := "sg-1" }] } }).calls,
      c.isCreate = false) :=
  c4_incomplete_network_selection.1 c1Env false
    { Metadata := ⟨"ns", "vm1"⟩,
      Spec := { SecurityGroupSelectors := [{ ID := "sg-1" }] } }
    ⟨_, rfl⟩ ⟨_, rfl⟩ (Or.inl ⟨rfl, by decide⟩)
